import Mathlib

/-!
# Warlnest: listing records and the Starknet routes

A shallow embedding of `backend/models/property.js`,
`backend/services/starknet.service.js`, `backend/routes/starknet.js` and the
rating and update routes of `backend/routes/properties.js`.

* A listing is a `Property` record carrying the paths declared by the schema
  (scalar paths and the string lists; the bookkeeping stamps that the store
  maintains by itself are not part of the record).
* The document store is a lookup table from listing id to record; `findById`
  and `save` are its only operations.
* Every route handler is a function from the request, the store and the answer
  the ledger gives (if it is asked) to an `Outcome`: the HTTP response, the
  store afterwards and the list of contract calls that were sent to the ledger.
* The library functions of `starknet` and `crypto` that the handlers call are
  not code of this repository; they are the fields of `Library`.
-/

namespace Warlnest

/-! ## Data model (`models/property.js`) -/

/-- Sub-document `propertySizeSchema`. -/
structure PropertySize where
  totalArea : Nat
  bedrooms : Option Nat
  bathrooms : Option Nat
  parking : Option Nat
  dimensions : Option String
  deriving DecidableEq, Repr

/-- Sub-document `propertyAgentSchema`. -/
structure PropertyAgent where
  name : String
  phone : String
  email : String
  photo : String
  company : Option String
  position : Option String
  deriving DecidableEq, Repr

/-- One document of `propertySchema`. Optional string paths whose default is `null`
are `Option String`; `price` is a whole amount of local currency; dates are
timestamps. -/
structure Property where
  title : String
  description : String
  location : String
  type : String
  purpose : String
  price : Nat
  appointmentFee : Nat
  size : PropertySize
  images : List String
  videos : List String
  tags : List String
  amenities : List String
  agent : PropertyAgent
  isFeatured : Bool
  datePosted : Nat
  views : Nat
  favorites : Nat
  rating : Option Rat
  reviewCount : Nat
  region : String
  district : String
  area : String
  blockchainTokenId : Option String
  blockchainTxHash : Option String
  onChain : Bool
  verified : Bool
  verificationTxHash : Option String
  verifiedAt : Option Nat
  ownerWalletAddress : Option String
  deriving DecidableEq, Repr

/-- JavaScript truthiness of an optional string value: `undefined`, `null` and the
empty string are falsy, every other string is truthy. -/
def truthy : Option String → Bool
  | some s => s != ""
  | none => false

/-- The document store: `Property.findById` is a lookup by id. -/
abbrev Store := String → Option Property

/-- Lookup `Property.findById(id)`; an `undefined` id matches no document. -/
def Store.findById (db : Store) : Option String → Option Property
  | some id => db id
  | none => none

/-- Effect of `property.save()` for the document with the given id. -/
def Store.save (db : Store) (id : String) (p : Property) : Store :=
  fun k => if k = id then some p else db k

/-! ## The ledger and the library -/

/-- Value of `uint256.bnToUint256`: the two 128-bit halves. -/
structure Uint256 where
  low : Nat
  high : Nat
  deriving DecidableEq, Repr

/-- Argument handed to `uint256.bnToUint256`: a whole JavaScript number, `NaN`,
a string, or `undefined`. -/
inductive BigNumberish where
  | num (n : Int)
  | nan
  | str (s : String)
  | undefined
  deriving DecidableEq, Repr

/-- A JavaScript number: `NaN`, the two infinities, or a finite value (a double,
held as the rational it equals; the two zeros are not told apart). -/
inductive JsNumber where
  | nan
  | posInf
  | negInf
  | fin (x : Rat)
  deriving DecidableEq, Repr

/-- Relation `a < b` on JavaScript numbers: false as soon as one side is `NaN`. -/
def JsNumber.lt : JsNumber → JsNumber → Bool
  | .fin a, .fin b => decide (a < b)
  | .fin _, .posInf => true
  | .negInf, .fin _ => true
  | .negInf, .posInf => true
  | _, _ => false

/-- A value of a property of a parsed JSON request body: the property is absent,
`null`, a boolean, a number, a string, or an array or object. An array or object
is held by `text`, the string that its conversion to a primitive gives
(`[object Object]` for an object, the elements joined by commas for an array). -/
inductive JsValue where
  | undefined
  | null
  | bool (b : Bool)
  | num (x : JsNumber)
  | str (s : String)
  | object (text : String)
  deriving DecidableEq, Repr

/-- JavaScript truthiness: `undefined`, `null`, `false`, `0`, `NaN` and the empty
string are falsy, every other value is truthy. -/
def JsValue.truthy : JsValue → Bool
  | .undefined => false
  | .null => false
  | .bool b => b
  | .num .nan => false
  | .num (.fin x) => x != 0
  | .num _ => true
  | .str s => s != ""
  | .object _ => true

/-- Library functions called by the service and the routes whose code is outside
the repository (`crypto.createHash("sha256")...digest("hex")`,
`shortString.encodeShortString`, `uint256.bnToUint256`). An `Except.error`
is a thrown exception with its message. The last field is the built-in conversion
of a string to a number that JavaScript applies when a string is compared with a
number. -/
structure Library where
  sha256Hex : String → String
  encodeShortString : String → Except String Nat
  bnToUint256 : BigNumberish → Except String Uint256
  stringToNumber : String → JsNumber

/-- Conversion of a value to a number, as a comparison with a number performs it. -/
def toNumber (lib : Library) : JsValue → JsNumber
  | .undefined => .nan
  | .null => .fin 0
  | .bool true => .fin 1
  | .bool false => .fin 0
  | .num x => x
  | .str s => lib.stringToNumber s
  | .object text => lib.stringToNumber text

/-- A state-changing contract call as the ledger receives it. -/
inductive LedgerCall where
  | mint_property (propertyIdFelt : Nat) (ownerAddress : Option String)
      (metadataUri : String) (priceUint256 : Uint256) (propertyType : Nat)
      (locationHash : String)
  | verify_property (tokenId : Uint256) (verifierAddress : Option String)
  | create_escrow (tokenId : Uint256) (buyerAddress : Option String) (amount : Uint256)
      (escrowType : Nat) (releaseConditions : String)
  | add_review (agentAddress : String) (reviewerAddress : Option String) (rating : JsValue)
      (tokenId : Uint256) (reviewHash : String)
  | report_fraud (agentAddress : String) (tokenId : Uint256) (evidenceHash : String)
  deriving DecidableEq, Repr

/-- The object a contract call resolves to; the service reads these three
properties of it, each of which may be missing. -/
structure InvokeResult where
  transaction_hash : Option String
  token_id : Option String
  escrow_id : Option String
  deriving DecidableEq, Repr

/-- What the ledger does with a submitted call: the contract call throws
(submission rejected), the call resolves but `waitForTransaction` throws
(finality failure), or the call resolves and reaches finality. -/
inductive LedgerAnswer where
  | submitRejected (message : String)
  | finalityFailed (result : InvokeResult) (message : String)
  | confirmed (result : InvokeResult)
  deriving DecidableEq, Repr

/-- Number of low bits a natural number loses when it is held in the 53-bit
significand of a double: the least `sh` at or above the given start such that
`n / 2 ^ sh < 2 ^ 53`, searched over at most `fuel` candidates. -/
def doubleShift (n : Nat) : Nat → Nat → Nat
  | 0, sh => sh
  | fuel + 1, sh => if n / 2 ^ sh < 2 ^ 53 then sh else doubleShift n fuel (sh + 1)

/-- Nearest IEEE-754 double to a natural number (round half to even), for
values in the finite range of doubles (below `2 ^ 1024`). -/
def roundToDouble (n : Nat) : Nat :=
  let sh := doubleShift n 971 0
  if sh = 0 then n
  else
    let q := n / 2 ^ sh
    let r := n % 2 ^ sh
    let half := 2 ^ (sh - 1)
    if half < r ∨ (r = half ∧ q % 2 = 1) then (q + 1) * 2 ^ sh else q * 2 ^ sh

/-- Value of `Math.floor(x * 1e18)` for a whole number `x` held in a double. -/
def floorMulE18 (x : Int) : Int :=
  if 0 ≤ x then (roundToDouble (x.toNat * 10 ^ 18) : Nat)
  else -((roundToDouble ((-x).toNat * 10 ^ 18) : Nat) : Int)

/-! ## The service (`services/starknet.service.js`) -/

/-- The service singleton: which contract instances and whether the admin
account were set up by the constructor (`null` otherwise). -/
structure StarknetService where
  propertyRegistry : Bool
  escrow : Bool
  reputation : Bool
  adminAccount : Bool
  deriving DecidableEq, Repr

/-- A service method either returns a value or throws; `calls` are the contract
calls it submitted on the way. -/
structure Attempt (α : Type) where
  result : Except String α
  calls : List LedgerCall

structure MintResult where
  success : Bool
  transactionHash : Option String
  tokenId : Option String
  deriving DecidableEq, Repr

structure TxResult where
  success : Bool
  transactionHash : Option String
  deriving DecidableEq, Repr

structure EscrowResult where
  success : Bool
  transactionHash : Option String
  escrowId : Option String
  deriving DecidableEq, Repr

/-- Shared tail of every state-changing service method: submit the call, wait
for the transaction, build the return value from the resolved object. -/
def submitAndWait {α : Type} (call : LedgerCall) (ans : LedgerAnswer)
    (ret : InvokeResult → α) : Attempt α :=
  match ans with
  | .submitRejected m => ⟨.error m, [call]⟩
  | .finalityFailed _ m => ⟨.error m, [call]⟩
  | .confirmed r => ⟨.ok (ret r), [call]⟩

/-- Method `StarknetService.mintProperty`. -/
def mintProperty (lib : Library) (svc : StarknetService) (ans : LedgerAnswer)
    (propertyId : String) (ownerAddress : Option String) (metadataUri : String)
    (price : BigNumberish) (propertyType : Nat) (locationHash : String) :
    Attempt MintResult :=
  if !svc.propertyRegistry then ⟨.error "PropertyRegistry contract not initialized", []⟩
  else
    match lib.encodeShortString (propertyId.take 31) with
    | .error e => ⟨.error e, []⟩
    | .ok propertyIdFelt =>
      match lib.bnToUint256 price with
      | .error e => ⟨.error e, []⟩
      | .ok priceUint256 =>
        submitAndWait
          (.mint_property propertyIdFelt ownerAddress metadataUri priceUint256 propertyType
            locationHash)
          ans
          (fun r => { success := true, transactionHash := r.transaction_hash,
                      tokenId := r.token_id })

/-- The token id read from the record, as `bnToUint256` receives it. -/
def tokenIdArg : Option String → BigNumberish
  | some s => .str s
  | none => .undefined

/-- Method `StarknetService.verifyProperty`. -/
def verifyProperty (lib : Library) (svc : StarknetService) (ans : LedgerAnswer)
    (tokenId : Option String) (verifierAddress : Option String) : Attempt TxResult :=
  if !svc.propertyRegistry || !svc.adminAccount then
    ⟨.error "PropertyRegistry or admin account not initialized", []⟩
  else
    match lib.bnToUint256 (tokenIdArg tokenId) with
    | .error e => ⟨.error e, []⟩
    | .ok tok =>
      submitAndWait (.verify_property tok verifierAddress) ans
        (fun r => { success := true, transactionHash := r.transaction_hash })

/-- Method `StarknetService.createEscrow`. -/
def createEscrow (lib : Library) (svc : StarknetService) (ans : LedgerAnswer)
    (propertyTokenId : Option String) (buyerAddress : Option String)
    (amount : BigNumberish) (escrowType : Nat) (releaseConditions : String) :
    Attempt EscrowResult :=
  if !svc.escrow then ⟨.error "Escrow contract not initialized", []⟩
  else
    match lib.bnToUint256 (tokenIdArg propertyTokenId) with
    | .error e => ⟨.error e, []⟩
    | .ok tok =>
      match lib.bnToUint256 amount with
      | .error e => ⟨.error e, []⟩
      | .ok amt =>
        submitAndWait (.create_escrow tok buyerAddress amt escrowType releaseConditions) ans
          (fun r => { success := true, transactionHash := r.transaction_hash,
                      escrowId := r.escrow_id })

/-- Method `StarknetService.addReview`. -/
def addReview (lib : Library) (svc : StarknetService) (ans : LedgerAnswer)
    (agentAddress : String) (reviewerAddress : Option String) (rating : JsValue)
    (propertyTokenId : Option String) (reviewHash : String) : Attempt TxResult :=
  if !svc.reputation then ⟨.error "Reputation contract not initialized", []⟩
  else
    match lib.bnToUint256 (tokenIdArg propertyTokenId) with
    | .error e => ⟨.error e, []⟩
    | .ok tok =>
      submitAndWait (.add_review agentAddress reviewerAddress rating tok reviewHash) ans
        (fun r => { success := true, transactionHash := r.transaction_hash })

/-- Method `StarknetService.reportFraud`. -/
def reportFraud (lib : Library) (svc : StarknetService) (ans : LedgerAnswer)
    (agentAddress : String) (propertyTokenId : Option String) (evidenceHash : String) :
    Attempt TxResult :=
  if !svc.reputation then ⟨.error "Reputation contract not initialized", []⟩
  else
    match lib.bnToUint256 (tokenIdArg propertyTokenId) with
    | .error e => ⟨.error e, []⟩
    | .ok tok =>
      submitAndWait (.report_fraud agentAddress tok evidenceHash) ans
        (fun r => { success := true, transactionHash := r.transaction_hash })

/-! ## The routes (`routes/starknet.js`) -/

/-- HTTP response: the status code and the JSON body. Body properties that a
given response does not carry are `none`. -/
structure Response where
  status : Nat
  message : String
  tokenId : Option String := none
  transactionHash : Option String := none
  escrowId : Option String := none
  property : Option Property := none
  deriving DecidableEq, Repr

/-- Result of handling one request. -/
structure Outcome where
  response : Response
  db : Store
  calls : List LedgerCall

/-- Table `propertyTypeMap` of the mint route. -/
def propertyTypeMap : String → Option Nat
  | "apartment" => some 0
  | "house" => some 1
  | "villa" => some 2
  | "commercial" => some 3
  | "land" => some 4
  | "studio" => some 5
  | _ => none

/-- Table `escrowTypeMap` of the escrow route. -/
def escrowTypeMap : String → Option Nat
  | "booking" => some 0
  | "deposit" => some 1
  | "payment" => some 2
  | _ => none

/-- Expression `"0x" + sha256(text).digest("hex").substring(0, 62)`. -/
def hashCommitment (lib : Library) (text : String) : String :=
  "0x" ++ (lib.sha256Hex text).take 62

/-- Handler of `POST /properties/:id/mint`. -/
def mintRoute (lib : Library) (svc : StarknetService) (db : Store) (id : String)
    (ownerAddress : Option String) (ans : LedgerAnswer) : Outcome :=
  if !truthy ownerAddress then
    ⟨{ status := 400, message := "Owner Starknet address required" }, db, []⟩
  else
    match db.findById (some id) with
    | none => ⟨{ status := 404, message := "Property not found" }, db, []⟩
    | some property =>
      if truthy property.blockchainTokenId then
        ⟨{ status := 400, message := "Property already minted",
           tokenId := property.blockchainTokenId }, db, []⟩
      else
        let metadataUri := "https://api.warlnest.com/metadata/" ++ id
        let propertyType := (propertyTypeMap property.type).getD 0
        let locationHash :=
          hashCommitment lib (property.location ++ property.region ++ property.district)
        let attempt := mintProperty lib svc ans id ownerAddress metadataUri
          (.num (floorMulE18 property.price)) propertyType locationHash
        match attempt.result with
        | .error msg => ⟨{ status := 500, message := msg }, db, attempt.calls⟩
        | .ok result =>
          let updated : Property :=
            { property with
              blockchainTokenId := result.tokenId
              blockchainTxHash := result.transactionHash
              onChain := true
              verified := false }
          ⟨{ status := 201, message := "Property minted successfully",
             tokenId := result.tokenId, transactionHash := result.transactionHash,
             property := some updated },
           db.save id updated, attempt.calls⟩

/-- Handler of `POST /properties/:id/verify`; `now` is the value of `new Date()`. -/
def verifyRoute (lib : Library) (svc : StarknetService) (db : Store) (id : String)
    (verifierAddress : Option String) (now : Nat) (ans : LedgerAnswer) : Outcome :=
  match db.findById (some id) with
  | none => ⟨{ status := 404, message := "Property not found" }, db, []⟩
  | some property =>
    if !truthy property.blockchainTokenId then
      ⟨{ status := 400, message := "Property not minted on blockchain" }, db, []⟩
    else
      let attempt := verifyProperty lib svc ans property.blockchainTokenId verifierAddress
      match attempt.result with
      | .error msg => ⟨{ status := 500, message := msg }, db, attempt.calls⟩
      | .ok result =>
        let updated : Property :=
          { property with
            verified := true
            verificationTxHash := result.transactionHash
            verifiedAt := some now }
        ⟨{ status := 200, message := "Property verified successfully",
           transactionHash := result.transactionHash, property := some updated },
         db.save id updated, attempt.calls⟩

/-- Body of `POST /escrow/create`. -/
structure EscrowBody where
  propertyId : Option String
  buyerAddress : Option String
  amount : Option Int
  escrowType : Option String
  releaseConditions : Option String
  deriving DecidableEq, Repr

/-- Expression `Math.floor(amount * 1e18)` for the amount of the request body:
a missing amount gives `NaN`. -/
def amountArg : Option Int → BigNumberish
  | some a => .num (floorMulE18 a)
  | none => .nan

/-- Handler of `POST /escrow/create`. -/
def createEscrowRoute (lib : Library) (svc : StarknetService) (db : Store)
    (body : EscrowBody) (ans : LedgerAnswer) : Outcome :=
  match db.findById body.propertyId with
  | none => ⟨{ status := 404, message := "Property not found" }, db, []⟩
  | some property =>
    if !truthy property.blockchainTokenId then
      ⟨{ status := 400, message := "Property not on blockchain" }, db, []⟩
    else
      let attempt := createEscrow lib svc ans property.blockchainTokenId body.buyerAddress
        (amountArg body.amount)
        ((body.escrowType.bind escrowTypeMap).getD 0)
        (if truthy body.releaseConditions then body.releaseConditions.getD ""
         else "Standard release conditions")
      match attempt.result with
      | .error msg => ⟨{ status := 500, message := msg }, db, attempt.calls⟩
      | .ok result =>
        ⟨{ status := 201, message := "Escrow created successfully",
           escrowId := result.escrowId, transactionHash := result.transactionHash },
         db, attempt.calls⟩

/-- Body of `POST /agents/:address/review`; the rating is whatever value the JSON
body carries under `rating`. -/
structure ReviewBody where
  reviewerAddress : Option String
  rating : JsValue
  propertyId : Option String
  reviewText : Option String
  deriving DecidableEq, Repr

/-- Handler of `POST /agents/:address/review`. The two comparisons of the range
check convert the rating to a number; the service receives the rating as it is. -/
def addReviewRoute (lib : Library) (svc : StarknetService) (db : Store)
    (address : String) (body : ReviewBody) (ans : LedgerAnswer) : Outcome :=
  if !truthy body.reviewerAddress || !body.rating.truthy || !truthy body.propertyId then
    ⟨{ status := 400, message := "Missing required fields" }, db, []⟩
  else
    if (toNumber lib body.rating).lt (.fin 1) || (JsNumber.fin 5).lt (toNumber lib body.rating)
    then
      ⟨{ status := 400, message := "Rating must be between 1 and 5" }, db, []⟩
    else
      match (db.findById body.propertyId).filter (fun p => truthy p.blockchainTokenId) with
      | none => ⟨{ status := 404, message := "Property not found on blockchain" }, db, []⟩
      | some property =>
        let reviewHash := hashCommitment lib (body.reviewText.getD "")
        let attempt := addReview lib svc ans address body.reviewerAddress body.rating
          property.blockchainTokenId reviewHash
        match attempt.result with
        | .error msg => ⟨{ status := 500, message := msg }, db, attempt.calls⟩
        | .ok result =>
          ⟨{ status := 201, message := "Review added successfully",
             transactionHash := result.transactionHash }, db, attempt.calls⟩

/-- Body of `POST /agents/:address/report-fraud`. -/
structure FraudBody where
  propertyId : Option String
  evidence : Option String
  deriving DecidableEq, Repr

/-- Handler of `POST /agents/:address/report-fraud`. -/
def reportFraudRoute (lib : Library) (svc : StarknetService) (db : Store)
    (address : String) (body : FraudBody) (ans : LedgerAnswer) : Outcome :=
  if !truthy body.propertyId || !truthy body.evidence then
    ⟨{ status := 400, message := "Property ID and evidence required" }, db, []⟩
  else
    match (db.findById body.propertyId).filter (fun p => truthy p.blockchainTokenId) with
    | none => ⟨{ status := 404, message := "Property not found on blockchain" }, db, []⟩
    | some property =>
      let evidenceHash := hashCommitment lib (body.evidence.getD "")
      let attempt := reportFraud lib svc ans address property.blockchainTokenId evidenceHash
      match attempt.result with
      | .error msg => ⟨{ status := 500, message := msg }, db, attempt.calls⟩
      | .ok result =>
        ⟨{ status := 201, message := "Fraud reported successfully",
           transactionHash := result.transactionHash }, db, attempt.calls⟩

/-! ## Request sequences on the listing store -/

/-- A mint or a verify request, with its route parameter and body. -/
inductive Request where
  | mint (id : String) (ownerAddress : Option String)
  | verify (id : String) (verifierAddress : Option String) (now : Nat)
  deriving DecidableEq, Repr

/-- Handle one request, the ledger answering `ans` if it is called. -/
def step (lib : Library) (svc : StarknetService) (db : Store) (req : Request)
    (ans : LedgerAnswer) : Outcome :=
  match req with
  | .mint id ownerAddress => mintRoute lib svc db id ownerAddress ans
  | .verify id verifierAddress now => verifyRoute lib svc db id verifierAddress now ans

/-- Handle a sequence of requests one after the other; the result is the store
after the last one. -/
def run (lib : Library) (svc : StarknetService) (db : Store) :
    List (Request × LedgerAnswer) → Store
  | [] => db
  | (req, ans) :: rest => run lib svc (step lib svc db req ans).db rest

/-- All contract calls sent to the ledger while handling a sequence of requests. -/
def runCalls (lib : Library) (svc : StarknetService) (db : Store) :
    List (Request × LedgerAnswer) → List LedgerCall
  | [] => []
  | (req, ans) :: rest =>
    (step lib svc db req ans).calls ++ runCalls lib svc (step lib svc db req ans).db rest

/-! ## Read routes (`GET /escrow/:escrowId`, `GET /agents/:address/reputation`) -/

/-- A JSON value of a response body. -/
inductive Json where
  | str (s : String)
  | num (n : Nat)
  | bool (b : Bool)
  deriving DecidableEq, Repr

/-- A JavaScript object with name keys, in insertion order. -/
abbrev JsObject := List (String × Json)

/-- Define a property the way an object literal does: a key that is already
present keeps its place and takes the new value, a new key goes to the end. -/
def JsObject.set : JsObject → String → Json → JsObject
  | [], k, v => [(k, v)]
  | (k0, v0) :: rest, k, v =>
    if k0 = k then (k0, v) :: rest else (k0, v0) :: JsObject.set rest k v

/-- Spread element `...src` of an object literal: the own properties of `src`
are defined one after the other on the object built so far. -/
def JsObject.spread (o src : JsObject) : JsObject :=
  src.foldl (fun acc kv => acc.set kv.1 kv.2) o

/-- Property read `o[k]`. -/
def JsObject.get (o : JsObject) (k : String) : Option Json :=
  (o.find? (fun kv => kv.1 = k)).map (fun kv => kv.2)

/-- Response of a read route: status code and JSON body. -/
structure JsonResponse where
  status : Nat
  body : JsObject
  deriving DecidableEq, Repr

/-- The whole number a `Uint256` denotes (`uint256.uint256ToBN`). -/
def uint256ToBN (u : Uint256) : Nat := u.low + u.high * 2 ^ 128

/-- Read accessors of the escrow contract; each read may throw. The status is
the numeric status code. -/
structure EscrowContract where
  get_escrow_status : Uint256 → Except String Nat
  get_escrow_amount : Uint256 → Except String Uint256
  get_escrow_parties : Uint256 → Except String (String × String)
  is_disputed : Uint256 → Except String Bool

/-- Return value of `StarknetService.getEscrowStatus`. -/
structure EscrowData where
  status : Nat
  amount : String
  seller : String
  buyer : String
  disputed : Bool
  deriving DecidableEq, Repr

/-- The own properties of the object `getEscrowStatus` returns, in order. -/
def EscrowData.toObject (d : EscrowData) : JsObject :=
  [("status", .num d.status), ("amount", .str d.amount), ("seller", .str d.seller),
   ("buyer", .str d.buyer), ("disputed", .bool d.disputed)]

/-- Method `StarknetService.getEscrowStatus`; the escrow id is encoded anew for
each of the four reads. -/
def getEscrowStatus (lib : Library) (svc : StarknetService) (contract : EscrowContract)
    (escrowId : String) : Except String EscrowData :=
  if !svc.escrow then .error "Escrow contract not initialized"
  else do
    let status ← contract.get_escrow_status (← lib.bnToUint256 (.str escrowId))
    let amount ← contract.get_escrow_amount (← lib.bnToUint256 (.str escrowId))
    let parties ← contract.get_escrow_parties (← lib.bnToUint256 (.str escrowId))
    let disputed ← contract.is_disputed (← lib.bnToUint256 (.str escrowId))
    pure { status := status, amount := toString (uint256ToBN amount),
           seller := parties.1, buyer := parties.2, disputed := disputed }

/-- Table `statusMap` of the escrow status route. -/
def statusMap : Nat → Option String
  | 0 => some "pending"
  | 1 => some "funded"
  | 2 => some "released"
  | 3 => some "refunded"
  | 4 => some "disputed"
  | _ => none

/-- Handler of `GET /escrow/:escrowId`: the body is the object literal
`{ escrowId, status: statusMap[escrowData.status] || "unknown", ...escrowData }`. -/
def escrowStatusRoute (lib : Library) (svc : StarknetService) (contract : EscrowContract)
    (escrowId : String) : JsonResponse :=
  match getEscrowStatus lib svc contract escrowId with
  | .error msg => { status := 500, body := [("message", .str msg)] }
  | .ok escrowData =>
    { status := 200
      body :=
        ((JsObject.set [] "escrowId" (.str escrowId)).set "status"
          (.str ((statusMap escrowData.status).getD "unknown"))).spread escrowData.toObject }

/-- Quotient `n / d` rounded to the nearest whole number, a tie going to the
even one. -/
def roundDiv (n d : Nat) : Nat :=
  let q := n / d
  let r := n % d
  if d < 2 * r ∨ (2 * r = d ∧ q % 2 = 1) then q + 1 else q

/-- The least `k` at or above the start with `100 * 2 ^ 52 ≤ a * 2 ^ k`, searched
over at most `fuel` candidates. -/
def scaleUp (a : Nat) : Nat → Nat → Nat
  | 0, k => k
  | fuel + 1, k => if 100 * 2 ^ 52 ≤ a * 2 ^ k then k else scaleUp a fuel (k + 1)

/-- The least `j` at or above the start with `a < 100 * 2 ^ 53 * 2 ^ j`, searched
over at most `fuel` candidates. -/
def scaleDown (a : Nat) : Nat → Nat → Nat
  | 0, j => j
  | fuel + 1, j => if a < 100 * 2 ^ 53 * 2 ^ j then j else scaleDown a fuel (j + 1)

/-- The double `a / 100` for a whole double `a` in the finite range, as the exact
fraction `(numerator, denominator)`: the quotient rounded to a 53-bit significand,
a tie going to the even one. -/
def divBy100 (a : Nat) : Nat × Nat :=
  if a = 0 then (0, 1)
  else if 100 * 2 ^ 53 ≤ a then
    let j := scaleDown a 1024 1
    (roundDiv a (100 * 2 ^ j) * 2 ^ j, 1)
  else
    let k := scaleUp a 60 0
    (roundDiv (a * 2 ^ k) 100, 2 ^ k)

/-- Two decimal digits of a number below 100. -/
def pad2 (d : Nat) : String :=
  if d < 10 then "0" ++ toString d else toString d

/-- Method call `x.toFixed(2)` for a non-negative double `x = num / den`: the whole
number `n` with `n / 100` nearest to `x` (the larger one on a tie), written with
a point before its last two digits. From `10 ^ 21` on `toFixed` gives the
exponential text of the number instead, which is the parameter `exponential`. -/
def toFixed2 (exponential : Nat × Nat → String) (x : Nat × Nat) : String :=
  if 10 ^ 21 * x.2 ≤ x.1 then exponential x
  else
    let n := (200 * x.1 + x.2) / (2 * x.2)
    toString (n / 100) ++ "." ++ pad2 (n % 100)

/-- Read accessors of the reputation contract; each read may throw. -/
structure ReputationContract where
  get_agent_score : String → Except String Uint256
  get_agent_review_count : String → Except String Uint256
  is_agent_verified : String → Except String Bool
  get_fraud_reports : String → Except String Uint256

/-- Return value of `StarknetService.getAgentReputation`; the three counters are
decimal strings in the source and are held here as the numbers they spell. -/
structure ReputationData where
  score : Nat
  reviewCount : Nat
  verified : Bool
  fraudReports : Nat
  deriving DecidableEq, Repr

/-- Method `StarknetService.getAgentReputation`. -/
def getAgentReputation (svc : StarknetService) (contract : ReputationContract)
    (agentAddress : String) : Except String ReputationData :=
  if !svc.reputation then .error "Reputation contract not initialized"
  else do
    let score ← contract.get_agent_score agentAddress
    let reviewCount ← contract.get_agent_review_count agentAddress
    let verified ← contract.is_agent_verified agentAddress
    let fraudReports ← contract.get_fraud_reports agentAddress
    pure { score := uint256ToBN score, reviewCount := uint256ToBN reviewCount,
           verified := verified, fraudReports := uint256ToBN fraudReports }

/-- Expression `(reputation.score / 100).toFixed(2)`: the decimal string of the
score becomes the nearest double, is divided by 100 and formatted. -/
def averageRatingText (exponential : Nat × Nat → String) (score : Nat) : String :=
  toFixed2 exponential (divBy100 (roundToDouble score))

/-- Handler of `GET /agents/:address/reputation`. -/
def reputationRoute (exponential : Nat × Nat → String) (svc : StarknetService)
    (contract : ReputationContract) (address : String) : JsonResponse :=
  match getAgentReputation svc contract address with
  | .error msg => { status := 500, body := [("message", .str msg)] }
  | .ok reputation =>
    { status := 200
      body :=
        [("agentAddress", .str address),
         ("averageRating", .str (averageRatingText exponential reputation.score)),
         ("reviewCount", .str (toString reputation.reviewCount)),
         ("verified", .bool reputation.verified),
         ("fraudReports", .str (toString reputation.fraudReports))] }

/-! ## Mint handlers interleaved at their suspension points -/

/-- The part of `mintProperty` that runs before the contract call is awaited: the
initialisation check and the two encodings. It gives the call that is submitted,
or the error that is thrown before any call. -/
def mintPropertyCall (lib : Library) (svc : StarknetService) (propertyId : String)
    (ownerAddress : Option String) (metadataUri : String) (price : BigNumberish)
    (propertyType : Nat) (locationHash : String) : Except String LedgerCall :=
  if !svc.propertyRegistry then .error "PropertyRegistry contract not initialized"
  else
    match lib.encodeShortString (propertyId.take 31) with
    | .error e => .error e
    | .ok propertyIdFelt =>
      match lib.bnToUint256 price with
      | .error e => .error e
      | .ok priceUint256 =>
        .ok (.mint_property propertyIdFelt ownerAddress metadataUri priceUint256 propertyType
          locationHash)

/-- A mint handler between its suspension points: not yet started; suspended in
`await starknetService.mintProperty(...)` with the document it loaded held in memory
and its contract call submitted; or finished with its response. -/
inductive MintTask where
  | arrived (id : String) (ownerAddress : Option String)
  | awaiting (id : String) (property : Property)
  | finished (response : Response)
  deriving DecidableEq, Repr

/-- First stretch of the mint handler, from the arrival of the request to the
submission of the contract call: the owner check, the lookup, the already-minted
check and the preparation of the call, all against the store as it is now. -/
def mintBegin (lib : Library) (svc : StarknetService) (db : Store) (id : String)
    (ownerAddress : Option String) : MintTask × List LedgerCall :=
  if !truthy ownerAddress then
    (.finished { status := 400, message := "Owner Starknet address required" }, [])
  else
    match db.findById (some id) with
    | none => (.finished { status := 404, message := "Property not found" }, [])
    | some property =>
      if truthy property.blockchainTokenId then
        (.finished { status := 400, message := "Property already minted",
                     tokenId := property.blockchainTokenId }, [])
      else
        match mintPropertyCall lib svc id ownerAddress
            ("https://api.warlnest.com/metadata/" ++ id)
            (.num (floorMulE18 property.price)) ((propertyTypeMap property.type).getD 0)
            (hashCommitment lib (property.location ++ property.region ++ property.district)) with
        | .error msg => (.finished { status := 500, message := msg }, [])
        | .ok call => (.awaiting id property, [call])

/-- Second stretch of the mint handler, from the ledger's answer to the response:
on failure the error response; on confirmation the document held in memory is
updated and saved over the stored one. -/
def mintEnd (db : Store) (id : String) (property : Property) (ans : LedgerAnswer) :
    Response × Store :=
  match ans with
  | .submitRejected msg => ({ status := 500, message := msg }, db)
  | .finalityFailed _ msg => ({ status := 500, message := msg }, db)
  | .confirmed r =>
    let updated : Property :=
      { property with
        blockchainTokenId := r.token_id
        blockchainTxHash := r.transaction_hash
        onChain := true
        verified := false }
    ({ status := 201, message := "Property minted successfully",
       tokenId := r.token_id, transactionHash := r.transaction_hash,
       property := some updated },
     db.save id updated)

/-- Two mint handlers running on one store and one ledger. -/
structure MintRace where
  db : Store
  calls : List LedgerCall
  first : MintTask
  second : MintTask

/-- Resume one handler until its next suspension point; `ans` is the answer the
ledger gives to this handler's call. A finished handler stays finished. -/
def MintTask.resume (lib : Library) (svc : StarknetService) (ans : LedgerAnswer)
    (db : Store) (task : MintTask) : MintTask × Store × List LedgerCall :=
  match task with
  | .arrived id ownerAddress =>
    ((mintBegin lib svc db id ownerAddress).1, db, (mintBegin lib svc db id ownerAddress).2)
  | .awaiting id property =>
    (.finished (mintEnd db id property ans).1, (mintEnd db id property ans).2, [])
  | .finished response => (.finished response, db, [])

/-- Run the two handlers in the order given by the schedule: `false` resumes the
first handler, `true` the second. -/
def MintRace.run (lib : Library) (svc : StarknetService) (ansFirst ansSecond : LedgerAnswer) :
    List Bool → MintRace → MintRace
  | [], w => w
  | false :: rest, w =>
    let r := w.first.resume lib svc ansFirst w.db
    MintRace.run lib svc ansFirst ansSecond rest
      { db := r.2.1, calls := w.calls ++ r.2.2, first := r.1, second := w.second }
  | true :: rest, w =>
    let r := w.second.resume lib svc ansSecond w.db
    MintRace.run lib svc ansFirst ansSecond rest
      { db := r.2.1, calls := w.calls ++ r.2.2, first := w.first, second := r.1 }

/-! ## The off-ledger rating route (`PATCH /:id/rating`, `routes/properties.js`) -/

/-- Response of a listing route: the status code and either an error message or
the listing document. -/
structure PropertyResponse where
  status : Nat
  message : Option String
  property : Option Property
  deriving DecidableEq, Repr

/-- Handler of `PATCH /:id/rating`, in exact arithmetic; the rating of the body is
a number. The save runs the schema validators of `rating` (`min: 0`, `max: 5`); a
validation error is caught and answered 400 with the error's message, of which only
the head is kept here. -/
def ratingRoute (db : Store) (id : String) (rating : Rat) : PropertyResponse × Store :=
  if rating < 0 ∨ rating > 5 then
    ({ status := 400, message := some "Rating must be between 0 and 5", property := none }, db)
  else
    match db.findById (some id) with
    | none => ({ status := 404, message := some "Property not found", property := none }, db)
    | some property =>
      let currentTotal := property.rating.getD 0 * (property.reviewCount : Rat)
      let newTotal := currentTotal + rating
      let newCount := property.reviewCount + 1
      let updated : Property :=
        { property with rating := some (newTotal / (newCount : Rat)), reviewCount := newCount }
      if newTotal / (newCount : Rat) < 0 ∨ newTotal / (newCount : Rat) > 5 then
        ({ status := 400, message := some "Property validation failed", property := none }, db)
      else
        ({ status := 200, message := none, property := some updated }, db.save id updated)

/-- Handle a sequence of rating updates for one listing one after the other. -/
def ratingRun (db : Store) (id : String) : List Rat → Store
  | [] => db
  | r :: rest => ratingRun (ratingRoute db id r).2 id rest

/-! ## The generic update route (`PATCH /:id`, `routes/properties.js`) -/

/-- Request body of `PATCH /:id`: for every schema path either no property
(`none`) or a value for it; the values are of the type of the path, and the
nullable paths may be set to `null`. -/
structure PropertyPatch where
  title : Option String := none
  description : Option String := none
  location : Option String := none
  type : Option String := none
  purpose : Option String := none
  price : Option Nat := none
  appointmentFee : Option Nat := none
  size : Option PropertySize := none
  images : Option (List String) := none
  videos : Option (List String) := none
  tags : Option (List String) := none
  amenities : Option (List String) := none
  agent : Option PropertyAgent := none
  isFeatured : Option Bool := none
  datePosted : Option Nat := none
  views : Option Nat := none
  favorites : Option Nat := none
  rating : Option Rat := none
  reviewCount : Option Nat := none
  region : Option String := none
  district : Option String := none
  area : Option String := none
  blockchainTokenId : Option (Option String) := none
  blockchainTxHash : Option (Option String) := none
  onChain : Option Bool := none
  verified : Option Bool := none
  verificationTxHash : Option (Option String) := none
  verifiedAt : Option (Option Nat) := none
  ownerWalletAddress : Option (Option String) := none

/-- Statement `Object.assign(property, req.body)`: every property of the body is
assigned to the document, the other paths keep their values. -/
def PropertyPatch.assign (body : PropertyPatch) (p : Property) : Property :=
  { title := body.title.getD p.title
    description := body.description.getD p.description
    location := body.location.getD p.location
    type := body.type.getD p.type
    purpose := body.purpose.getD p.purpose
    price := body.price.getD p.price
    appointmentFee := body.appointmentFee.getD p.appointmentFee
    size := body.size.getD p.size
    images := body.images.getD p.images
    videos := body.videos.getD p.videos
    tags := body.tags.getD p.tags
    amenities := body.amenities.getD p.amenities
    agent := body.agent.getD p.agent
    isFeatured := body.isFeatured.getD p.isFeatured
    datePosted := body.datePosted.getD p.datePosted
    views := body.views.getD p.views
    favorites := body.favorites.getD p.favorites
    rating := match body.rating with
      | some r => some r
      | none => p.rating
    reviewCount := body.reviewCount.getD p.reviewCount
    region := body.region.getD p.region
    district := body.district.getD p.district
    area := body.area.getD p.area
    blockchainTokenId := body.blockchainTokenId.getD p.blockchainTokenId
    blockchainTxHash := body.blockchainTxHash.getD p.blockchainTxHash
    onChain := body.onChain.getD p.onChain
    verified := body.verified.getD p.verified
    verificationTxHash := body.verificationTxHash.getD p.verificationTxHash
    verifiedAt := body.verifiedAt.getD p.verifiedAt
    ownerWalletAddress := body.ownerWalletAddress.getD p.ownerWalletAddress }

/-- Values of the `enum` of the path `type`. -/
def propertyTypes : List String :=
  ["apartment", "house", "villa", "commercial", "land", "studio"]

/-- Values of the `enum` of the path `purpose`. -/
def propertyPurposes : List String := ["rent", "sale", "shortStay"]

/-- The schema validators that the save runs on the paths the body has assigned:
required strings are not empty, `type` and `purpose` are values of their `enum`,
`rating` lies between `min: 0` and `max: 5`. The blockchain paths have no
validator. -/
def PropertyPatch.valid (body : PropertyPatch) : Prop :=
  body.title ≠ some "" ∧ body.description ≠ some "" ∧ body.location ≠ some "" ∧
  body.region ≠ some "" ∧
  (∀ t, body.type = some t → t ∈ propertyTypes) ∧
  (∀ u, body.purpose = some u → u ∈ propertyPurposes) ∧
  (∀ r, body.rating = some r → 0 ≤ r ∧ r ≤ 5) ∧
  (∀ l, body.images = some l → "" ∉ l) ∧
  (∀ a, body.agent = some a → a.name ≠ "" ∧ a.phone ≠ "" ∧ a.email ≠ "" ∧ a.photo ≠ "")

instance (body : PropertyPatch) : Decidable body.valid := by
  unfold PropertyPatch.valid
  have h5 : Decidable (∀ t, body.type = some t → t ∈ propertyTypes) :=
    match h : body.type with
    | none => isTrue (fun _ ht => by cases ht)
    | some t0 =>
      if hm : t0 ∈ propertyTypes then isTrue (fun t ht => by cases ht; exact hm)
      else isFalse (fun hall => hm (hall t0 rfl))
  have h6 : Decidable (∀ u, body.purpose = some u → u ∈ propertyPurposes) :=
    match h : body.purpose with
    | none => isTrue (fun _ ht => by cases ht)
    | some t0 =>
      if hm : t0 ∈ propertyPurposes then isTrue (fun t ht => by cases ht; exact hm)
      else isFalse (fun hall => hm (hall t0 rfl))
  have h7 : Decidable (∀ r, body.rating = some r → 0 ≤ r ∧ r ≤ 5) :=
    match h : body.rating with
    | none => isTrue (fun _ ht => by cases ht)
    | some r0 =>
      if hm : 0 ≤ r0 ∧ r0 ≤ 5 then isTrue (fun t ht => by cases ht; exact hm)
      else isFalse (fun hall => hm (hall r0 rfl))
  have h8 : Decidable (∀ l, body.images = some l → "" ∉ l) :=
    match h : body.images with
    | none => isTrue (fun _ ht => by cases ht)
    | some l0 =>
      if hm : "" ∉ l0 then isTrue (fun t ht => by cases ht; exact hm)
      else isFalse (fun hall => hm (hall l0 rfl))
  have h9 : Decidable (∀ a, body.agent = some a →
      a.name ≠ "" ∧ a.phone ≠ "" ∧ a.email ≠ "" ∧ a.photo ≠ "") :=
    match h : body.agent with
    | none => isTrue (fun _ ht => by cases ht)
    | some a0 =>
      if hm : a0.name ≠ "" ∧ a0.phone ≠ "" ∧ a0.email ≠ "" ∧ a0.photo ≠ "" then
        isTrue (fun t ht => by cases ht; exact hm)
      else isFalse (fun hall => hm (hall a0 rfl))
  infer_instance

/-- Handler of `PATCH /:id`. A validation error of the save is caught and answered
400 with the error's message, of which only the head is kept here. The handler
contains no call of the Starknet service. -/
def patchRoute (db : Store) (id : String) (body : PropertyPatch) :
    PropertyResponse × Store :=
  match db.findById (some id) with
  | none => ({ status := 404, message := some "Property not found", property := none }, db)
  | some property =>
    if body.valid then
      ({ status := 200, message := none, property := some (body.assign property) },
       db.save id (body.assign property))
    else
      ({ status := 400, message := some "Property validation failed", property := none }, db)

/-! ## Predicates and sample data used by the statements -/

/-- First token-record invariant: a token id implies `onChain`, and `verified`
implies `onChain`. -/
def ChainInv (p : Property) : Prop :=
  (truthy p.blockchainTokenId = true → p.onChain = true) ∧
  (p.verified = true → p.onChain = true)

/-- Second token-record invariant: a set `verificationTxHash` implies a token id. -/
def TxInv (p : Property) : Prop :=
  p.verificationTxHash ≠ none → truthy p.blockchainTokenId = true

/-- Blockchain paths of a newly created listing: the schema defaults. -/
def IsNewListing (p : Property) : Prop :=
  p.blockchainTokenId = none ∧ p.blockchainTxHash = none ∧ p.onChain = false ∧
  p.verified = false ∧ p.verificationTxHash = none ∧ p.verifiedAt = none

instance : DecidablePred IsNewListing := fun p => by
  unfold IsNewListing; infer_instance

/-- Error message of a failing ledger answer (`none` for a confirmed call). -/
def LedgerAnswer.failure : LedgerAnswer → Option String
  | .submitRejected m => some m
  | .finalityFailed _ m => some m
  | .confirmed _ => none

def sampleSize : PropertySize :=
  { totalArea := 120, bedrooms := some 3, bathrooms := some 2, parking := some 1,
    dimensions := none }

def sampleAgent : PropertyAgent :=
  { name := "Agent", phone := "0700000000", email := "agent@example.com",
    photo := "agent.png", company := none, position := none }

/-- A newly created listing: a house priced at 15,000,000. -/
def newListing : Property :=
  { title := "Family house", description := "Three bedrooms", location := "Kampala",
    type := "house", purpose := "sale", price := 15000000, appointmentFee := 20000,
    size := sampleSize, images := ["front.png"], videos := [], tags := [], amenities := [],
    agent := sampleAgent, isFeatured := false, datePosted := 1700000000, views := 0,
    favorites := 0, rating := none, reviewCount := 0, region := "Central",
    district := "Kampala", area := "",
    blockchainTokenId := none, blockchainTxHash := none, onChain := false,
    verified := false, verificationTxHash := none, verifiedAt := none,
    ownerWalletAddress := none }

/-- A store holding `newListing` under the id `p1` and nothing else. -/
def sampleStore : Store := fun k => if k = "p1" then some newListing else none

/-- A service with all contracts and the admin account set up. -/
def readyService : StarknetService :=
  { propertyRegistry := true, escrow := true, reputation := true, adminAccount := true }

/-- A stand-in for the library functions, used to evaluate the handlers on
concrete requests: a constant digest, a constant short-string code, a
`bnToUint256` that splits whole numbers of the 256-bit range and accepts every
non-empty string, and a string conversion that reads the empty string as 0, a
string of decimal digits as its value and every other string as `NaN`. -/
def stubLibrary : Library :=
  { sha256Hex := fun _ => "e3b0c44298fc1c149afbf4c8996fb92427ae41e4649b934ca495991b7852b855"
    encodeShortString := fun _ => .ok 1
    bnToUint256 := fun b =>
      match b with
      | .num n =>
        if 0 ≤ n ∧ n < 2 ^ 256 then .ok ⟨n.toNat % 2 ^ 128, n.toNat / 2 ^ 128⟩
        else .error "Number is too large"
      | .str s => if s = "" then .error "Cannot convert to a BigInt" else .ok ⟨s.length, 0⟩
      | .nan => .error "The number NaN cannot be converted to a BigInt"
      | .undefined => .error "Cannot convert undefined to a BigInt"
    stringToNumber := fun s =>
      if s = "" then .fin 0
      else if s.data.all Char.isDigit then
        .fin ((s.data.foldl (fun n c => 10 * n + (c.toNat - 48)) 0 : Nat) : Rat)
      else .nan }

/-- A request was turned away: client-error status, no contract call, store untouched. -/
def Rejected (out : Outcome) (db : Store) : Prop :=
  (out.response.status = 400 ∨ out.response.status = 404) ∧ out.calls = [] ∧ out.db = db

/-- A record with a token id although `onChain` is false. -/
def strayTokenListing : Property := { newListing with blockchainTokenId := some "7" }

/-- A store holding `strayTokenListing` under the id `p2`. -/
def strayStore : Store := fun k => if k = "p2" then some strayTokenListing else none

/-- The listing `newListing` after a confirmed mint that returned token id 7. -/
def mintedListing : Property :=
  { newListing with
    blockchainTokenId := some "7", blockchainTxHash := some "0xaa", onChain := true }

/-- A store holding `mintedListing` under the id `p1`. -/
def mintedStore : Store := fun k => if k = "p1" then some mintedListing else none

/-- The store after a mint of `p1` in `sampleStore` that the ledger confirmed with
a result carrying a transaction hash and no token id. -/
def tokenlessMintStore : Store :=
  (mintRoute stubLibrary readyService sampleStore "p1" (some "0xowner")
    (.confirmed ⟨some "0xaa", none, none⟩)).db

/-- An escrow contract whose reads all succeed: the given status code, an amount of
5 units, fixed parties, not disputed. -/
def stubEscrowContract (code : Nat) : EscrowContract :=
  { get_escrow_status := fun _ => .ok code
    get_escrow_amount := fun _ => .ok ⟨5000000000000000000, 0⟩
    get_escrow_parties := fun _ => .ok ("0xseller", "0xbuyer")
    is_disputed := fun _ => .ok false }

/-- A reputation contract whose reads all succeed: the given score, 12 reviews,
verified, no fraud report. -/
def stubReputationContract (score : Nat) : ReputationContract :=
  { get_agent_score := fun _ => .ok ⟨score, 0⟩
    get_agent_review_count := fun _ => .ok ⟨12, 0⟩
    is_agent_verified := fun _ => .ok true
    get_fraud_reports := fun _ => .ok ⟨0, 0⟩ }

/-- A stand-in for the exponential text of numbers from `10 ^ 21` on. -/
def stubExponential : Nat × Nat → String := fun _ => "1e+21"


/-- The release conditions handed to the service: `releaseConditions ||
"Standard release conditions"`. -/
def releaseConditionsArg (rc : Option String) : String :=
  if truthy rc then rc.getD "" else "Standard release conditions"

/-- The three escrow kinds. -/
inductive EscrowKind where
  | booking
  | deposit
  | fullPayment
  deriving DecidableEq, Repr

/-- The `escrowType` value of the request body that names the kind: the keys of
`escrowTypeMap` (0 = booking fee, 1 = deposit, 2 = full payment). -/
def EscrowKind.requestValue : EscrowKind → String
  | .booking => "booking"
  | .deposit => "deposit"
  | .fullPayment => "payment"

/-- The type code of the kind on the ledger. -/
def EscrowKind.code : EscrowKind → Nat
  | .booking => 0
  | .deposit => 1
  | .fullPayment => 2

/-- The three token states of a listing. -/
inductive TokenState where
  | unminted
  | minted
  | verified
  deriving DecidableEq, Repr

/-- Position of a state in the order Unminted, Minted, Verified. -/
def TokenState.rank : TokenState → Nat
  | .unminted => 0
  | .minted => 1
  | .verified => 2

/-- The token state a record is in. -/
def tokenState (p : Property) : TokenState :=
  if p.verified then .verified
  else if truthy p.blockchainTokenId then .minted
  else .unminted

/-- A record is in one of the three token states: a verified record carries a
token id. -/
def WellStated (p : Property) : Prop :=
  p.verified = true → truthy p.blockchainTokenId = true

/-- Value of a lower-case hexadecimal digit. -/
def hexDigit (c : Char) : Option Nat :=
  if '0' ≤ c ∧ c ≤ '9' then some (c.toNat - '0'.toNat)
  else if 'a' ≤ c ∧ c ≤ 'f' then some (c.toNat - 'a'.toNat + 10)
  else none

/-- The number a string of hexadecimal digits denotes, most significant digit
first, continuing from the value `acc` of the digits read so far. -/
def hexValueFrom : Option Nat → List Char → Option Nat
  | acc, [] => acc
  | acc, c :: cs =>
    hexValueFrom (match acc, hexDigit c with
      | some a, some d => some (a * 16 + d)
      | _, _ => none) cs

/-- The number that a literal `0x…` denotes: the hexadecimal value of what follows
the first two characters. -/
def scalarOfHex (s : String) : Option Nat := hexValueFrom (some 0) (s.drop 2).data

/-- A SHA-256 digest in hexadecimal: 64 lower-case hexadecimal digits. -/
def IsHexDigest (s : String) : Prop :=
  s.data.length = 64 ∧ ∀ c ∈ s.data, (hexDigit c).isSome = true

instance : DecidablePred IsHexDigest := fun s => by
  unfold IsHexDigest; infer_instance

/-- Status code of the response of a finished handler. -/
def MintTask.statusCode : MintTask → Option Nat
  | .finished response => some response.status
  | _ => none

/-- Two mint requests for the listing `p1` of `sampleStore`, not yet started. -/
def sampleRace : MintRace :=
  { db := sampleStore, calls := []
    first := .arrived "p1" (some "0xowner")
    second := .arrived "p1" (some "0xowner") }

/-- The new listing with location `ab`, region `c` and no district. -/
def listingAbC : Property :=
  { newListing with location := "ab", region := "c", district := "" }

/-- The new listing with location `a`, region `bc` and no district. -/
def listingABc : Property :=
  { newListing with location := "a", region := "bc", district := "" }

/-- A store holding the given listing under the id `p1`. -/
def singleStore (p : Property) : Store := fun k => if k = "p1" then some p else none

/-- An update body whose only property is `verified: true`. -/
def verifiedPatch : PropertyPatch := { verified := some true }

/-! ## Lemmas about the store, the service and the routes -/

theorem save_same (db : Store) (id : String) (p : Property) : db.save id p id = some p := by
  simp [Store.save]

theorem save_other (db : Store) (id k : String) (p : Property) (h : k ≠ id) :
    db.save id p k = db k := by
  simp [Store.save, h]

theorem submitAndWait_calls {α : Type} (call : LedgerCall) (ans : LedgerAnswer)
    (ret : InvokeResult → α) : (submitAndWait call ans ret).calls = [call] := by
  cases ans <;> rfl

theorem submitAndWait_ok {α : Type} (call : LedgerCall) (ans : LedgerAnswer)
    (ret : InvokeResult → α) (v : α) (h : (submitAndWait call ans ret).result = .ok v) :
    ∃ r, ans = .confirmed r ∧ v = ret r := by
  cases ans with
  | submitRejected m => simp [submitAndWait] at h
  | finalityFailed r m => simp [submitAndWait] at h
  | confirmed r => exact ⟨r, rfl, by simpa [submitAndWait] using h.symm⟩

theorem mintProperty_ok (lib : Library) (svc : StarknetService) (ans : LedgerAnswer)
    (id : String) (owner : Option String) (uri : String) (price : BigNumberish) (ty : Nat)
    (loc : String) (v : MintResult)
    (h : (mintProperty lib svc ans id owner uri price ty loc).result = .ok v) :
    ∃ r, ans = .confirmed r ∧
      v = { success := true, transactionHash := r.transaction_hash, tokenId := r.token_id } := by
  unfold mintProperty at h
  split at h
  · simp at h
  · split at h
    · simp at h
    · split at h
      · simp at h
      · exact submitAndWait_ok _ _ _ _ h

/-- The store after a mint request: unchanged, or the record of the request was
unminted, the ledger confirmed, and the four token fields were written. -/
theorem mintRoute_db (lib : Library) (svc : StarknetService) (db : Store) (id : String)
    (owner : Option String) (ans : LedgerAnswer) :
    (mintRoute lib svc db id owner ans).db = db ∨
    ∃ p r, db id = some p ∧ truthy p.blockchainTokenId = false ∧ ans = .confirmed r ∧
      (mintRoute lib svc db id owner ans).db =
        db.save id { p with blockchainTokenId := r.token_id
                            blockchainTxHash := r.transaction_hash
                            onChain := true
                            verified := false } := by
  unfold mintRoute
  split
  · left; rfl
  · simp only [Store.findById]
    split
    · left; rfl
    · rename_i p hp
      split
      · left; rfl
      · rename_i htok
        split
        · left; rfl
        · rename_i v hv
          obtain ⟨r, hr, hv2⟩ := mintProperty_ok _ _ _ _ _ _ _ _ _ _ hv
          right
          refine ⟨p, r, hp, by simpa using htok, hr, ?_⟩
          subst hv2
          rfl

theorem verifyProperty_ok (lib : Library) (svc : StarknetService) (ans : LedgerAnswer)
    (tokenId verifier : Option String) (v : TxResult)
    (h : (verifyProperty lib svc ans tokenId verifier).result = .ok v) :
    ∃ r, ans = .confirmed r ∧ v = { success := true, transactionHash := r.transaction_hash } := by
  unfold verifyProperty at h
  split at h
  · simp at h
  · split at h
    · simp at h
    · exact submitAndWait_ok _ _ _ _ h

/-- The store after a verify request: unchanged, or the record of the request
carried a token id, the ledger confirmed, and the three verification fields were
written. -/
theorem verifyRoute_db (lib : Library) (svc : StarknetService) (db : Store) (id : String)
    (verifier : Option String) (now : Nat) (ans : LedgerAnswer) :
    (verifyRoute lib svc db id verifier now ans).db = db ∨
    ∃ p r, db id = some p ∧ truthy p.blockchainTokenId = true ∧ ans = .confirmed r ∧
      (verifyRoute lib svc db id verifier now ans).db =
        db.save id { p with verified := true
                            verificationTxHash := r.transaction_hash
                            verifiedAt := some now } := by
  unfold verifyRoute
  simp only [Store.findById]
  split
  · left; rfl
  · rename_i p hp
    split
    · left; rfl
    · rename_i htok
      split
      · left; rfl
      · rename_i v hv
        obtain ⟨r, hr, hv2⟩ := verifyProperty_ok _ _ _ _ _ _ hv
        right
        refine ⟨p, r, hp, by simpa using htok, hr, ?_⟩
        subst hv2
        rfl

/-- A predicate on records that is kept by the write of a confirmed mint on an
unminted record and by the write of a confirmed verification on a record with a
token id is kept by every request, whatever the ledger answers; the listing stays
in the store. -/
theorem step_preserves (I : Property → Prop)
    (hmint : ∀ (p : Property) (r : InvokeResult), I p → truthy p.blockchainTokenId = false →
      I { p with blockchainTokenId := r.token_id
                 blockchainTxHash := r.transaction_hash
                 onChain := true
                 verified := false })
    (hverify : ∀ (p : Property) (r : InvokeResult) (now : Nat), I p →
      truthy p.blockchainTokenId = true →
      I { p with verified := true
                 verificationTxHash := r.transaction_hash
                 verifiedAt := some now })
    (lib : Library) (svc : StarknetService) (db : Store) (req : Request)
    (ans : LedgerAnswer) (id : String) (p : Property) (hp : db id = some p) (hI : I p) :
    ∃ q, (step lib svc db req ans).db id = some q ∧ I q := by
  cases req with
  | mint id2 owner =>
    simp only [step]
    rcases mintRoute_db lib svc db id2 owner ans with h | ⟨p2, r, hp2, htok, -, h⟩
    · rw [h]; exact ⟨p, hp, hI⟩
    · rw [h]
      by_cases hid : id = id2
      · subst hid
        rw [hp] at hp2
        cases hp2
        exact ⟨_, save_same _ _ _, hmint p r hI htok⟩
      · rw [save_other _ _ _ _ hid]; exact ⟨p, hp, hI⟩
  | verify id2 verifier now =>
    simp only [step]
    rcases verifyRoute_db lib svc db id2 verifier now ans with h | ⟨p2, r, hp2, htok, -, h⟩
    · rw [h]; exact ⟨p, hp, hI⟩
    · rw [h]
      by_cases hid : id = id2
      · subst hid
        rw [hp] at hp2
        cases hp2
        exact ⟨_, save_same _ _ _, hverify p r now hI htok⟩
      · rw [save_other _ _ _ _ hid]; exact ⟨p, hp, hI⟩

theorem run_preserves (I : Property → Prop)
    (hmint : ∀ (p : Property) (r : InvokeResult), I p → truthy p.blockchainTokenId = false →
      I { p with blockchainTokenId := r.token_id
                 blockchainTxHash := r.transaction_hash
                 onChain := true
                 verified := false })
    (hverify : ∀ (p : Property) (r : InvokeResult) (now : Nat), I p →
      truthy p.blockchainTokenId = true →
      I { p with verified := true
                 verificationTxHash := r.transaction_hash
                 verifiedAt := some now })
    (lib : Library) (svc : StarknetService) (reqs : List (Request × LedgerAnswer)) :
    ∀ (db : Store) (id : String) (p : Property), db id = some p → I p →
      ∃ q, run lib svc db reqs id = some q ∧ I q := by
  induction reqs with
  | nil => intro db id p hp hI; exact ⟨p, hp, hI⟩
  | cons ra rest ih =>
    intro db id p hp hI
    obtain ⟨req, ans⟩ := ra
    obtain ⟨q, hq, hqI⟩ := step_preserves I hmint hverify lib svc db req ans id p hp hI
    exact ih _ id q hq hqI

theorem run_chainInv (lib : Library) (svc : StarknetService)
    (reqs : List (Request × LedgerAnswer)) (db : Store) (id : String) (p : Property)
    (hp : db id = some p) (hI : ChainInv p) :
    ∃ q, run lib svc db reqs id = some q ∧ ChainInv q := by
  refine run_preserves ChainInv ?_ ?_ lib svc reqs db id p hp hI
  · intro p r _ _
    exact ⟨fun _ => rfl, fun h => by simp at h⟩
  · intro p r now hI htok
    exact ⟨hI.1, fun _ => hI.1 htok⟩

theorem run_txInv (lib : Library) (svc : StarknetService)
    (reqs : List (Request × LedgerAnswer)) (db : Store) (id : String) (p : Property)
    (hp : db id = some p) (hI : TxInv p) :
    ∃ q, run lib svc db reqs id = some q ∧ TxInv q := by
  refine run_preserves TxInv ?_ ?_ lib svc reqs db id p hp hI
  · intro p r hI htok hv
    have hv2 : p.verificationTxHash ≠ none := hv
    have := hI hv2
    simp [this] at htok
  · intro p r now _ htok _
    exact htok

theorem addReview_calls (lib : Library) (svc : StarknetService) (ans : LedgerAnswer)
    (agent : String) (reviewer : Option String) (rating : JsValue) (tokenId : Option String)
    (hash : String) :
    (addReview lib svc ans agent reviewer rating tokenId hash).calls = [] ∨
    ∃ tok, (addReview lib svc ans agent reviewer rating tokenId hash).calls =
      [.add_review agent reviewer rating tok hash] := by
  unfold addReview
  split
  · left; rfl
  · split
    · left; rfl
    · rename_i tok _
      right; exact ⟨tok, submitAndWait_calls _ _ _⟩

theorem createEscrowRoute_no_token (lib : Library) (svc : StarknetService) (db : Store)
    (body : EscrowBody) (ans : LedgerAnswer) (p : Property)
    (hp : db.findById body.propertyId = some p) (htok : truthy p.blockchainTokenId = false) :
    (createEscrowRoute lib svc db body ans).response =
      { status := 400, message := "Property not on blockchain" } ∧
    (createEscrowRoute lib svc db body ans).calls = [] ∧
    (createEscrowRoute lib svc db body ans).db = db := by
  unfold createEscrowRoute
  simp only [hp, htok]
  exact ⟨rfl, rfl, rfl⟩

theorem createEscrowRoute_rejected (lib : Library) (svc : StarknetService) (db : Store)
    (body : EscrowBody) (ans : LedgerAnswer)
    (h : ∀ p, db.findById body.propertyId = some p → truthy p.blockchainTokenId = false) :
    Rejected (createEscrowRoute lib svc db body ans) db := by
  cases hf : db.findById body.propertyId with
  | none =>
    unfold createEscrowRoute
    simp only [hf]
    exact ⟨Or.inr rfl, rfl, rfl⟩
  | some p =>
    obtain ⟨h1, h2, h3⟩ := createEscrowRoute_no_token lib svc db body ans p hf (h p hf)
    exact ⟨Or.inl (by rw [h1]), h2, h3⟩

theorem filter_token_none (db : Store) (propertyId : Option String)
    (h : ∀ p, db.findById propertyId = some p → truthy p.blockchainTokenId = false) :
    (db.findById propertyId).filter (fun p => truthy p.blockchainTokenId) = none := by
  cases hf : db.findById propertyId with
  | none => rfl
  | some p => simp [Option.filter, h p hf]

theorem addReviewRoute_rejected (lib : Library) (svc : StarknetService) (db : Store)
    (address : String) (body : ReviewBody) (ans : LedgerAnswer)
    (h : ∀ p, db.findById body.propertyId = some p → truthy p.blockchainTokenId = false) :
    Rejected (addReviewRoute lib svc db address body ans) db := by
  unfold addReviewRoute
  split
  · exact ⟨Or.inl rfl, rfl, rfl⟩
  · simp only [filter_token_none db body.propertyId h]
    split
    · exact ⟨Or.inl rfl, rfl, rfl⟩
    · exact ⟨Or.inr rfl, rfl, rfl⟩

theorem reportFraudRoute_rejected (lib : Library) (svc : StarknetService) (db : Store)
    (address : String) (body : FraudBody) (ans : LedgerAnswer)
    (h : ∀ p, db.findById body.propertyId = some p → truthy p.blockchainTokenId = false) :
    Rejected (reportFraudRoute lib svc db address body ans) db := by
  unfold reportFraudRoute
  split
  · exact ⟨Or.inl rfl, rfl, rfl⟩
  · simp only [filter_token_none db body.propertyId h]
    exact ⟨Or.inr rfl, rfl, rfl⟩

theorem sampleStore_untokenized :
    ∀ p, sampleStore.findById (some "p1") = some p → truthy p.blockchainTokenId = false := by
  intro p hp
  simp [Store.findById, sampleStore] at hp
  subst hp
  rfl

theorem submitAndWait_failure {α : Type} (call : LedgerCall) (ans : LedgerAnswer)
    (ret : InvokeResult → α) (msg : String) (hf : ans.failure = some msg) :
    (submitAndWait call ans ret).result = .error msg := by
  cases ans with
  | submitRejected m => simp [LedgerAnswer.failure] at hf; simp [submitAndWait, hf]
  | finalityFailed r m => simp [LedgerAnswer.failure] at hf; simp [submitAndWait, hf]
  | confirmed r => simp [LedgerAnswer.failure] at hf

/-- What `mintProperty` does: it throws before any contract call, or it submits
exactly one `mint_property` call built from the encoded arguments. -/
theorem mintProperty_cases (lib : Library) (svc : StarknetService) (ans : LedgerAnswer)
    (id : String) (owner : Option String) (uri : String) (price : BigNumberish) (ty : Nat)
    (loc : String) :
    (∃ e, mintProperty lib svc ans id owner uri price ty loc = ⟨.error e, []⟩) ∨
    ∃ felt u, lib.encodeShortString (id.take 31) = .ok felt ∧ lib.bnToUint256 price = .ok u ∧
      mintProperty lib svc ans id owner uri price ty loc =
        submitAndWait (.mint_property felt owner uri u ty loc) ans
          (fun r => { success := true, transactionHash := r.transaction_hash,
                      tokenId := r.token_id }) := by
  unfold mintProperty
  split
  · left; exact ⟨_, rfl⟩
  · split
    · left; exact ⟨_, rfl⟩
    · rename_i felt hfelt
      split
      · left; exact ⟨_, rfl⟩
      · rename_i u hu
        right; exact ⟨felt, u, hfelt, hu, rfl⟩

/-- What `verifyProperty` does: it throws before any contract call, or it submits
exactly one `verify_property` call. -/
theorem verifyProperty_cases (lib : Library) (svc : StarknetService) (ans : LedgerAnswer)
    (tokenId verifier : Option String) :
    (∃ e, verifyProperty lib svc ans tokenId verifier = ⟨.error e, []⟩) ∨
    ∃ tok, lib.bnToUint256 (tokenIdArg tokenId) = .ok tok ∧
      verifyProperty lib svc ans tokenId verifier =
        submitAndWait (.verify_property tok verifier) ans
          (fun r => { success := true, transactionHash := r.transaction_hash }) := by
  unfold verifyProperty
  split
  · left; exact ⟨_, rfl⟩
  · split
    · left; exact ⟨_, rfl⟩
    · rename_i tok htok
      right; exact ⟨tok, htok, rfl⟩

/-- The mint route on an unminted record, once the owner address is given: the
response, store and calls in terms of the service attempt. -/
theorem mintRoute_unminted (lib : Library) (svc : StarknetService) (db : Store) (id : String)
    (owner : Option String) (ans : LedgerAnswer) (p : Property)
    (hown : truthy owner = true) (hp : db id = some p)
    (htok : truthy p.blockchainTokenId = false) :
    mintRoute lib svc db id owner ans =
      match (mintProperty lib svc ans id owner ("https://api.warlnest.com/metadata/" ++ id)
          (.num (floorMulE18 p.price)) ((propertyTypeMap p.type).getD 0)
          (hashCommitment lib (p.location ++ p.region ++ p.district))).result with
      | .error msg =>
        ⟨{ status := 500, message := msg }, db,
         (mintProperty lib svc ans id owner ("https://api.warlnest.com/metadata/" ++ id)
          (.num (floorMulE18 p.price)) ((propertyTypeMap p.type).getD 0)
          (hashCommitment lib (p.location ++ p.region ++ p.district))).calls⟩
      | .ok result =>
        ⟨{ status := 201, message := "Property minted successfully",
           tokenId := result.tokenId, transactionHash := result.transactionHash,
           property := some { p with blockchainTokenId := result.tokenId
                                     blockchainTxHash := result.transactionHash
                                     onChain := true
                                     verified := false } },
         db.save id { p with blockchainTokenId := result.tokenId
                             blockchainTxHash := result.transactionHash
                             onChain := true
                             verified := false },
         (mintProperty lib svc ans id owner ("https://api.warlnest.com/metadata/" ++ id)
          (.num (floorMulE18 p.price)) ((propertyTypeMap p.type).getD 0)
          (hashCommitment lib (p.location ++ p.region ++ p.district))).calls⟩ := by
  unfold mintRoute
  simp only [hown, Store.findById, hp, htok]
  rfl

/-- The verify route on a record with a token id, in terms of the service attempt. -/
theorem verifyRoute_minted (lib : Library) (svc : StarknetService) (db : Store) (id : String)
    (verifier : Option String) (now : Nat) (ans : LedgerAnswer) (p : Property)
    (hp : db id = some p) (htok : truthy p.blockchainTokenId = true) :
    verifyRoute lib svc db id verifier now ans =
      match (verifyProperty lib svc ans p.blockchainTokenId verifier).result with
      | .error msg =>
        ⟨{ status := 500, message := msg }, db,
         (verifyProperty lib svc ans p.blockchainTokenId verifier).calls⟩
      | .ok result =>
        ⟨{ status := 200, message := "Property verified successfully",
           transactionHash := result.transactionHash,
           property := some { p with verified := true
                                     verificationTxHash := result.transactionHash
                                     verifiedAt := some now } },
         db.save id { p with verified := true
                             verificationTxHash := result.transactionHash
                             verifiedAt := some now },
         (verifyProperty lib svc ans p.blockchainTokenId verifier).calls⟩ := by
  unfold verifyRoute
  simp only [Store.findById, hp, htok]
  rfl


theorem mintRoute_calls_owner (lib : Library) (svc : StarknetService) (db : Store)
    (id : String) (owner : Option String) (ans : LedgerAnswer)
    (hcall : (mintRoute lib svc db id owner ans).calls ≠ []) : truthy owner = true := by
  cases h : truthy owner with
  | true => rfl
  | false =>
    exfalso; apply hcall
    unfold mintRoute
    simp [h]

theorem mintRoute_failure (lib : Library) (svc : StarknetService) (db : Store) (id : String)
    (owner : Option String) (ans : LedgerAnswer) (msg : String)
    (hf : ans.failure = some msg) :
    (mintRoute lib svc db id owner ans).db = db ∧
    400 ≤ (mintRoute lib svc db id owner ans).response.status ∧
    ((mintRoute lib svc db id owner ans).calls ≠ [] →
      (mintRoute lib svc db id owner ans).response = { status := 500, message := msg }) := by
  cases hown : truthy owner with
  | false => unfold mintRoute; simp [hown]
  | true =>
    cases hp : db id with
    | none => unfold mintRoute; simp [hown, Store.findById, hp]
    | some p =>
      cases htok : truthy p.blockchainTokenId with
      | true => unfold mintRoute; simp [hown, Store.findById, hp, htok]
      | false =>
        rw [mintRoute_unminted lib svc db id owner ans p hown hp htok]
        rcases mintProperty_cases lib svc ans id owner
            ("https://api.warlnest.com/metadata/" ++ id) (.num (floorMulE18 p.price))
            ((propertyTypeMap p.type).getD 0)
            (hashCommitment lib (p.location ++ p.region ++ p.district)) with
          ⟨e, h⟩ | ⟨felt, u, -, -, h⟩
        · rw [h]; simp
        · rw [h, submitAndWait_failure _ _ _ msg hf]
          simp

theorem verifyRoute_failure (lib : Library) (svc : StarknetService) (db : Store)
    (id : String) (verifier : Option String) (now : Nat) (ans : LedgerAnswer) (msg : String)
    (hf : ans.failure = some msg) :
    (verifyRoute lib svc db id verifier now ans).db = db ∧
    400 ≤ (verifyRoute lib svc db id verifier now ans).response.status ∧
    ((verifyRoute lib svc db id verifier now ans).calls ≠ [] →
      (verifyRoute lib svc db id verifier now ans).response =
        { status := 500, message := msg }) := by
  cases hp : db id with
  | none => unfold verifyRoute; simp [Store.findById, hp]
  | some p =>
    cases htok : truthy p.blockchainTokenId with
    | false => unfold verifyRoute; simp [Store.findById, hp, htok]
    | true =>
      rw [verifyRoute_minted lib svc db id verifier now ans p hp htok]
      rcases verifyProperty_cases lib svc ans p.blockchainTokenId verifier with
        ⟨e, h⟩ | ⟨tok, -, h⟩
      · rw [h]; simp
      · rw [h, submitAndWait_failure _ _ _ msg hf]
        simp

theorem set_get_same (o : JsObject) (k : String) (v : Json) : (o.set k v).get k = some v := by
  induction o with
  | nil => simp [JsObject.set, JsObject.get]
  | cons kv rest ih =>
    obtain ⟨k0, v0⟩ := kv
    by_cases h : k0 = k
    · simp [JsObject.set, JsObject.get, h]
    · simp only [JsObject.set, h, if_false]
      simp only [JsObject.get, List.find?, h, decide_False] at ih ⊢
      exact ih

theorem set_get_other (o : JsObject) (k k2 : String) (v : Json) (h : k ≠ k2) :
    (o.set k v).get k2 = o.get k2 := by
  induction o with
  | nil => simp [JsObject.set, JsObject.get, h]
  | cons kv rest ih =>
    obtain ⟨k0, v0⟩ := kv
    by_cases h0 : k0 = k
    · subst h0
      simp [JsObject.set, JsObject.get, h]
    · simp only [JsObject.set, h0, if_false]
      by_cases h2 : k0 = k2
      · simp [JsObject.get, h2]
      · simp only [JsObject.get, List.find?, h2, decide_False] at ih ⊢
        exact ih

theorem roundToDouble_small (n : Nat) (h : n < 2 ^ 53) : roundToDouble n = n := by
  have h1 : doubleShift n 971 0 = 0 := by
    show (if n / 2 ^ 0 < 2 ^ 53 then 0 else doubleShift n 970 (0 + 1)) = 0
    rw [if_pos (by simpa using h)]
  simp only [roundToDouble, h1, if_true]

theorem roundDiv_100_error (n : Nat) :
    100 * roundDiv n 100 ≤ n + 50 ∧ n ≤ 100 * roundDiv n 100 + 50 := by
  unfold roundDiv
  simp only []
  split <;> omega

theorem scaleUp_ge_seven (a : Nat) (ha : a * 2 ^ 6 < 100 * 2 ^ 52) :
    ∀ (fuel k : Nat), 7 ≤ k + fuel → 7 ≤ scaleUp a fuel k := by
  intro fuel
  induction fuel with
  | zero => intro k hk; simpa [scaleUp] using hk
  | succ fuel ih =>
    intro k hk
    simp only [scaleUp]
    split
    · rename_i hc
      by_contra hlt
      have hk6 : k ≤ 6 := by omega
      have : a * 2 ^ k ≤ a * 2 ^ 6 :=
        Nat.mul_le_mul_left a (Nat.pow_le_pow_right (by norm_num) hk6)
      omega
    · exact ih (k + 1) (by omega)

/-- For scores below `100 * 2 ^ 46` the text of the average rating is the score
with a point before its last two digits. -/
theorem averageRatingText_exact (exponential : Nat × Nat → String) (s : Nat)
    (hs : s < 7036874417766400) :
    averageRatingText exponential s = toString (s / 100) ++ "." ++ pad2 (s % 100) := by
  unfold averageRatingText
  rw [roundToDouble_small s (by norm_num; omega)]
  by_cases h0 : s = 0
  · subst h0
    simp [divBy100, toFixed2]
  · have hbig : ¬ (100 * 2 ^ 53 ≤ s) := by norm_num; omega
    simp only [divBy100, h0, hbig, if_false]
    have hk : 7 ≤ scaleUp s 60 0 := scaleUp_ge_seven s (by norm_num; omega) 60 0 (by norm_num)
    generalize scaleUp s 60 0 = k at hk
    have hP : 2 ^ 7 ≤ 2 ^ k := Nat.pow_le_pow_right (by norm_num) hk
    generalize hPdef : 2 ^ k = P at hP
    obtain ⟨he1, he2⟩ := roundDiv_100_error (s * P)
    generalize roundDiv (s * P) 100 = m at he1 he2
    have hsP : s * P < 7036874417766400 * P := by
      apply Nat.mul_lt_mul_of_pos_right hs; omega
    have hlt : ¬ (10 ^ 21 * P ≤ m) := by
      norm_num at hP ⊢
      omega
    have hn : (200 * m + P) / (2 * P) = s := by
      apply Nat.div_eq_of_lt_le
      · have : s * (2 * P) = 2 * (s * P) := by ring
        norm_num at hP
        omega
      · have : (s + 1) * (2 * P) = 2 * (s * P) + 2 * P := by ring
        norm_num at hP
        omega
    simp only [toFixed2, hlt, if_false, hn]


/-- What `createEscrow` does: it throws before any contract call, or it submits
exactly one `create_escrow` call built from the encoded arguments. -/
theorem createEscrow_cases (lib : Library) (svc : StarknetService) (ans : LedgerAnswer)
    (tokenId buyer : Option String) (amount : BigNumberish) (ty : Nat) (rc : String) :
    (∃ e, createEscrow lib svc ans tokenId buyer amount ty rc = ⟨.error e, []⟩) ∨
    ∃ tok amt, lib.bnToUint256 (tokenIdArg tokenId) = .ok tok ∧
      lib.bnToUint256 amount = .ok amt ∧
      createEscrow lib svc ans tokenId buyer amount ty rc =
        submitAndWait (.create_escrow tok buyer amt ty rc) ans
          (fun r => { success := true, transactionHash := r.transaction_hash,
                      escrowId := r.escrow_id }) := by
  unfold createEscrow
  split
  · left; exact ⟨_, rfl⟩
  · split
    · left; exact ⟨_, rfl⟩
    · rename_i tok htok
      split
      · left; exact ⟨_, rfl⟩
      · rename_i amt hamt
        right; exact ⟨tok, amt, htok, hamt, rfl⟩

/-- The escrow route on a record with a token id, in terms of the service attempt. -/
theorem createEscrowRoute_tokenized (lib : Library) (svc : StarknetService) (db : Store)
    (body : EscrowBody) (ans : LedgerAnswer) (p : Property)
    (hp : db.findById body.propertyId = some p) (htok : truthy p.blockchainTokenId = true) :
    createEscrowRoute lib svc db body ans =
      match (createEscrow lib svc ans p.blockchainTokenId body.buyerAddress
          (amountArg body.amount) ((body.escrowType.bind escrowTypeMap).getD 0)
          (releaseConditionsArg body.releaseConditions)).result with
      | .error msg =>
        ⟨{ status := 500, message := msg }, db,
         (createEscrow lib svc ans p.blockchainTokenId body.buyerAddress
          (amountArg body.amount) ((body.escrowType.bind escrowTypeMap).getD 0)
          (releaseConditionsArg body.releaseConditions)).calls⟩
      | .ok result =>
        ⟨{ status := 201, message := "Escrow created successfully",
           escrowId := result.escrowId, transactionHash := result.transactionHash }, db,
         (createEscrow lib svc ans p.blockchainTokenId body.buyerAddress
          (amountArg body.amount) ((body.escrowType.bind escrowTypeMap).getD 0)
          (releaseConditionsArg body.releaseConditions)).calls⟩ := by
  unfold createEscrowRoute
  simp only [hp, htok]
  rfl

/-- The calls of the escrow route on a record with a token id: none, or the one
`create_escrow` call with the token id and the scaled amount as `bnToUint256`
returned them. -/
theorem createEscrowRoute_calls (lib : Library) (svc : StarknetService) (db : Store)
    (body : EscrowBody) (ans : LedgerAnswer) (p : Property)
    (hp : db.findById body.propertyId = some p) (htok : truthy p.blockchainTokenId = true) :
    (createEscrowRoute lib svc db body ans).calls = [] ∨
    ∃ tok amt, lib.bnToUint256 (tokenIdArg p.blockchainTokenId) = .ok tok ∧
      lib.bnToUint256 (amountArg body.amount) = .ok amt ∧
      (createEscrowRoute lib svc db body ans).calls =
        [.create_escrow tok body.buyerAddress amt
          ((body.escrowType.bind escrowTypeMap).getD 0)
          (releaseConditionsArg body.releaseConditions)] := by
  rw [createEscrowRoute_tokenized lib svc db body ans p hp htok]
  rcases createEscrow_cases lib svc ans p.blockchainTokenId body.buyerAddress
      (amountArg body.amount) ((body.escrowType.bind escrowTypeMap).getD 0)
      (releaseConditionsArg body.releaseConditions) with ⟨e, h⟩ | ⟨tok, amt, h1, h2, h⟩
  · left; rw [h]
  · right
    refine ⟨tok, amt, h1, h2, ?_⟩
    rw [h]
    cases ans <;> rfl


/-- The service method `mintProperty` is its preparation followed by the
submission of the prepared call. -/
theorem mintProperty_eq_call (lib : Library) (svc : StarknetService) (ans : LedgerAnswer)
    (id : String) (owner : Option String) (uri : String) (price : BigNumberish) (ty : Nat)
    (loc : String) :
    mintProperty lib svc ans id owner uri price ty loc =
      match mintPropertyCall lib svc id owner uri price ty loc with
      | .error e => ⟨.error e, []⟩
      | .ok call =>
        submitAndWait call ans
          (fun r => { success := true, transactionHash := r.transaction_hash,
                      tokenId := r.token_id }) := by
  unfold mintProperty mintPropertyCall
  split
  · rfl
  · split
    · rfl
    · split <;> rfl

/-- The mint route is the first stretch of the handler followed by the second. -/
theorem mintRoute_eq_begin_end (lib : Library) (svc : StarknetService) (db : Store)
    (id : String) (owner : Option String) (ans : LedgerAnswer) :
    mintRoute lib svc db id owner ans =
      match mintBegin lib svc db id owner with
      | (.finished response, calls) => ⟨response, db, calls⟩
      | (.awaiting id2 property, calls) =>
        ⟨(mintEnd db id2 property ans).1, (mintEnd db id2 property ans).2, calls⟩
      | (.arrived _ _, calls) => ⟨{ status := 500, message := "" }, db, calls⟩ := by
  cases hown : truthy owner with
  | false => unfold mintRoute mintBegin; simp [hown]
  | true =>
    cases hp : db id with
    | none => unfold mintRoute mintBegin; simp [hown, Store.findById, hp]
    | some p =>
      cases htok : truthy p.blockchainTokenId with
      | true => unfold mintRoute mintBegin; simp [hown, Store.findById, hp, htok]
      | false =>
        rw [mintRoute_unminted lib svc db id owner ans p hown hp htok, mintProperty_eq_call]
        unfold mintBegin
        simp only [hown, Store.findById, hp, htok]
        cases hc : mintPropertyCall lib svc id owner
            ("https://api.warlnest.com/metadata/" ++ id) (.num (floorMulE18 p.price))
            ((propertyTypeMap p.type).getD 0)
            (hashCommitment lib (p.location ++ p.region ++ p.district)) with
        | error e => rfl
        | ok call => cases ans <;> rfl

theorem mintRoute_calls_indep (lib : Library) (svc : StarknetService) (db : Store)
    (id : String) (owner : Option String) (ans1 ans2 : LedgerAnswer) :
    (mintRoute lib svc db id owner ans1).calls = (mintRoute lib svc db id owner ans2).calls := by
  rw [mintRoute_eq_begin_end lib svc db id owner ans1,
    mintRoute_eq_begin_end lib svc db id owner ans2]
  rcases h : mintBegin lib svc db id owner with ⟨task, calls⟩
  cases task <;> rfl

theorem run_append (lib : Library) (svc : StarknetService)
    (reqs1 reqs2 : List (Request × LedgerAnswer)) :
    ∀ db : Store, run lib svc db (reqs1 ++ reqs2) = run lib svc (run lib svc db reqs1) reqs2 := by
  induction reqs1 with
  | nil => intro db; rfl
  | cons ra rest ih =>
    intro db
    obtain ⟨req, ans⟩ := ra
    simp only [List.cons_append, run]
    exact ih _

theorem run_wellStated (lib : Library) (svc : StarknetService)
    (reqs : List (Request × LedgerAnswer)) (db : Store) (id : String) (p : Property)
    (hp : db id = some p) (hI : WellStated p) :
    ∃ q, run lib svc db reqs id = some q ∧ WellStated q := by
  refine run_preserves WellStated ?_ ?_ lib svc reqs db id p hp hI
  · intro p r _ _ h
    simp at h
  · intro p r now _ htok _
    exact htok

/-- From a record in one of the three token states onwards, a mint or verify
sequence keeps `verified` once it is true and keeps the token id once it is there. -/
theorem run_forward (lib : Library) (svc : StarknetService)
    (reqs : List (Request × LedgerAnswer)) (db : Store) (id : String) (p : Property)
    (hp : db id = some p) (hI : WellStated p) :
    ∃ q, run lib svc db reqs id = some q ∧ WellStated q ∧
      (p.verified = true → q.verified = true) ∧
      (truthy p.blockchainTokenId = true → q.blockchainTokenId = p.blockchainTokenId) := by
  refine run_preserves
    (fun q => WellStated q ∧ (p.verified = true → q.verified = true) ∧
      (truthy p.blockchainTokenId = true → q.blockchainTokenId = p.blockchainTokenId))
    ?_ ?_ lib svc reqs db id p hp ⟨hI, fun h => h, fun _ => rfl⟩
  · intro q r ⟨hw, hv, ht⟩ hun
    refine ⟨fun h => by simp at h, ?_, ?_⟩
    · intro hpv
      have := hw (hv hpv)
      simp [this] at hun
    · intro hpt
      have := ht hpt
      rw [this, hpt] at hun
      simp at hun
  · intro q r now ⟨_, _, ht⟩ htok
    exact ⟨fun _ => htok, fun _ => rfl, ht⟩

theorem hexDigit_lt (c : Char) (d : Nat) (h : hexDigit c = some d) : d < 16 := by
  unfold hexDigit at h
  split at h
  · rename_i hc
    have h1 : c.toNat ≤ '9'.toNat := hc.2
    simp at h
    have : ('9' : Char).toNat = 57 := by decide
    have : ('0' : Char).toNat = 48 := by decide
    omega
  · split at h
    · rename_i hc
      have h1 : c.toNat ≤ 'f'.toNat := hc.2
      simp at h
      have : ('f' : Char).toNat = 102 := by decide
      have : ('a' : Char).toNat = 97 := by decide
      omega
    · simp at h

theorem hexValueFrom_bound (cs : List Char) :
    ∀ a : Nat, (∀ c ∈ cs, (hexDigit c).isSome = true) →
      ∃ v, hexValueFrom (some a) cs = some v ∧ v < (a + 1) * 16 ^ cs.length := by
  induction cs with
  | nil => intro a _; exact ⟨a, rfl, by simp⟩
  | cons c cs ih =>
    intro a h
    have hc := h c (List.mem_cons_self _ _)
    obtain ⟨d, hd⟩ := Option.isSome_iff_exists.mp hc
    have hlt := hexDigit_lt c d hd
    obtain ⟨v, hv, hvlt⟩ := ih (a * 16 + d) (fun x hx => h x (List.mem_cons_of_mem _ hx))
    refine ⟨v, ?_, ?_⟩
    · simp only [hexValueFrom, hd]
      exact hv
    · calc v < (a * 16 + d + 1) * 16 ^ cs.length := hvlt
        _ ≤ ((a + 1) * 16) * 16 ^ cs.length := Nat.mul_le_mul_right _ (by omega)
        _ = (a + 1) * 16 ^ (c :: cs).length := by
          rw [List.length_cons, Nat.pow_succ]; ring

/-- The commitment of a text whose digest is well formed is a literal of 64
characters that denotes a number below `2 ^ 248`. -/
theorem hashCommitment_bound (lib : Library) (text : String)
    (h : IsHexDigest (lib.sha256Hex text)) :
    ∃ v, scalarOfHex (hashCommitment lib text) = some v ∧ v < 2 ^ 248 := by
  obtain ⟨hlen, hdig⟩ := h
  have hdata : ((hashCommitment lib text).drop 2).data = (lib.sha256Hex text).data.take 62 := by
    simp [hashCommitment, String.data_drop, String.data_append, String.data_take]
  obtain ⟨v, hv, hvlt⟩ := hexValueFrom_bound ((lib.sha256Hex text).data.take 62) 0
    (fun c hc => hdig c (List.mem_of_mem_take hc))
  refine ⟨v, by rw [scalarOfHex, hdata]; exact hv, ?_⟩
  have hl : ((lib.sha256Hex text).data.take 62).length = 62 := by
    rw [List.length_take]; omega
  rw [hl] at hvlt
  calc v < (0 + 1) * 16 ^ 62 := hvlt
    _ = 2 ^ 248 := by norm_num


theorem reportFraud_calls (lib : Library) (svc : StarknetService) (ans : LedgerAnswer)
    (agent : String) (tokenId : Option String) (hash : String) :
    (reportFraud lib svc ans agent tokenId hash).calls = [] ∨
    ∃ tok, (reportFraud lib svc ans agent tokenId hash).calls =
      [.report_fraud agent tok hash] := by
  unfold reportFraud
  split
  · left; rfl
  · split
    · left; rfl
    · rename_i tok _
      right; exact ⟨tok, submitAndWait_calls _ _ _⟩

/-- The calls of the review route: none, or the one `add_review` call, which
carries the rating of the body as it is; the call is sent only for a truthy rating
that the range check lets through. -/
theorem addReviewRoute_calls (lib : Library) (svc : StarknetService) (db : Store)
    (address : String) (body : ReviewBody) (ans : LedgerAnswer) :
    (addReviewRoute lib svc db address body ans).calls = [] ∨
    ∃ tok, body.rating.truthy = true ∧
      (toNumber lib body.rating).lt (.fin 1) = false ∧
      (JsNumber.fin 5).lt (toNumber lib body.rating) = false ∧
      (addReviewRoute lib svc db address body ans).calls =
      [.add_review address body.reviewerAddress body.rating tok
        (hashCommitment lib (body.reviewText.getD ""))] := by
  unfold addReviewRoute
  by_cases h1 : (!truthy body.reviewerAddress || !body.rating.truthy ||
      !truthy body.propertyId) = true
  · left; simp [h1]
  · by_cases h2 : ((toNumber lib body.rating).lt (.fin 1) ||
        (JsNumber.fin 5).lt (toNumber lib body.rating)) = true
    · left; simp only [h1, h2, if_true]; simp
    · simp only [h1, h2, Bool.false_eq_true, if_false]
      cases hf : (db.findById body.propertyId).filter (fun p => truthy p.blockchainTokenId) with
      | none => left; rfl
      | some property =>
        simp only []
        have ht : body.rating.truthy = true := by
          cases h : body.rating.truthy with
          | true => rfl
          | false => simp [h] at h1
        have hlo : (toNumber lib body.rating).lt (.fin 1) = false := by
          cases h : (toNumber lib body.rating).lt (.fin 1) with
          | false => rfl
          | true => simp [h] at h2
        have hhi : (JsNumber.fin 5).lt (toNumber lib body.rating) = false := by
          cases h : (JsNumber.fin 5).lt (toNumber lib body.rating) with
          | false => rfl
          | true => simp [h] at h2
        rcases addReview_calls lib svc ans address body.reviewerAddress
            body.rating property.blockchainTokenId
            (hashCommitment lib (body.reviewText.getD "")) with h | ⟨tok, h⟩
        · left; split <;> exact h
        · right; refine ⟨tok, ht, hlo, hhi, ?_⟩; split <;> exact h

/-- The part of the rating check that holds: a rating that is missing or falsy, or
whose number value is below 1 or above 5, is answered with status 400, and the route
makes no ledger call and leaves the store alone. -/
theorem addReviewRoute_rating_out_of_range (lib : Library) (svc : StarknetService)
    (db : Store) (address : String) (body : ReviewBody) (ans : LedgerAnswer)
    (h : body.rating.truthy = false ∨ (toNumber lib body.rating).lt (.fin 1) = true ∨
      (JsNumber.fin 5).lt (toNumber lib body.rating) = true) :
    (addReviewRoute lib svc db address body ans).response.status = 400 ∧
    (addReviewRoute lib svc db address body ans).calls = [] ∧
    (addReviewRoute lib svc db address body ans).db = db := by
  unfold addReviewRoute
  split
  · exact ⟨rfl, rfl, rfl⟩
  · have h2 : ((toNumber lib body.rating).lt (.fin 1) ||
        (JsNumber.fin 5).lt (toNumber lib body.rating)) = true := by
      rcases h with h | h | h
      · rename_i h1
        simp [h] at h1
      · simp [h]
      · simp [h]
    simp only [h2, if_true]
    exact ⟨trivial, trivial, trivial⟩

/-- The calls of the fraud route: none, or the one `report_fraud` call. -/
theorem reportFraudRoute_calls (lib : Library) (svc : StarknetService) (db : Store)
    (address : String) (body : FraudBody) (ans : LedgerAnswer) :
    (reportFraudRoute lib svc db address body ans).calls = [] ∨
    ∃ tok, (reportFraudRoute lib svc db address body ans).calls =
      [.report_fraud address tok (hashCommitment lib (body.evidence.getD ""))] := by
  unfold reportFraudRoute
  by_cases h1 : (!truthy body.propertyId || !truthy body.evidence) = true
  · left; simp [h1]
  · simp only [h1, Bool.false_eq_true, if_false]
    cases hf : (db.findById body.propertyId).filter (fun p => truthy p.blockchainTokenId) with
    | none => left; rfl
    | some property =>
      simp only []
      rcases reportFraud_calls lib svc ans address property.blockchainTokenId
          (hashCommitment lib (body.evidence.getD "")) with h | ⟨tok, h⟩
      · left; split <;> exact h
      · right; refine ⟨tok, ?_⟩; split <;> exact h

/-- The calls of the mint route: none, or the one `mint_property` call for the
stored record. -/
theorem mintRoute_calls (lib : Library) (svc : StarknetService) (db : Store)
    (id : String) (owner : Option String) (ans : LedgerAnswer) :
    (mintRoute lib svc db id owner ans).calls = [] ∨
    ∃ p felt u, db id = some p ∧ lib.bnToUint256 (.num (floorMulE18 p.price)) = .ok u ∧
      (mintRoute lib svc db id owner ans).calls =
        [.mint_property felt owner ("https://api.warlnest.com/metadata/" ++ id) u
          ((propertyTypeMap p.type).getD 0)
          (hashCommitment lib (p.location ++ p.region ++ p.district))] := by
  cases hown : truthy owner with
  | false => left; unfold mintRoute; simp [hown]
  | true =>
    cases hp : db id with
    | none => left; unfold mintRoute; simp [hown, Store.findById, hp]
    | some p =>
      cases htok : truthy p.blockchainTokenId with
      | true => left; unfold mintRoute; simp [hown, Store.findById, hp, htok]
      | false =>
        rw [mintRoute_unminted lib svc db id owner ans p hown hp htok]
        rcases mintProperty_cases lib svc ans id owner
            ("https://api.warlnest.com/metadata/" ++ id) (.num (floorMulE18 p.price))
            ((propertyTypeMap p.type).getD 0)
            (hashCommitment lib (p.location ++ p.region ++ p.district)) with
          ⟨e, h⟩ | ⟨felt, u, -, hu, h⟩
        · left; rw [h]
        · right
          refine ⟨p, felt, u, rfl, hu, ?_⟩
          rw [h]
          cases ans <;> rfl

set_option maxRecDepth 8000 in
theorem stubLibrary_digest (t : String) : IsHexDigest (stubLibrary.sha256Hex t) := by
  show IsHexDigest "e3b0c44298fc1c149afbf4c8996fb92427ae41e4649b934ca495991b7852b855"
  decide

/-- Running the two handlers one after the other is handling the two requests
with the mint route one after the other. -/
theorem race_sequential (lib : Library) (svc : StarknetService) (db : Store)
    (id1 id2 : String) (owner1 owner2 : Option String) (ans1 ans2 : LedgerAnswer) :
    (MintRace.run lib svc ans1 ans2 [false, false, true, true]
      ⟨db, [], .arrived id1 owner1, .arrived id2 owner2⟩).first =
      .finished (mintRoute lib svc db id1 owner1 ans1).response ∧
    (MintRace.run lib svc ans1 ans2 [false, false, true, true]
      ⟨db, [], .arrived id1 owner1, .arrived id2 owner2⟩).second =
      .finished (mintRoute lib svc (mintRoute lib svc db id1 owner1 ans1).db id2 owner2
        ans2).response ∧
    (MintRace.run lib svc ans1 ans2 [false, false, true, true]
      ⟨db, [], .arrived id1 owner1, .arrived id2 owner2⟩).db =
      (mintRoute lib svc (mintRoute lib svc db id1 owner1 ans1).db id2 owner2 ans2).db ∧
    (MintRace.run lib svc ans1 ans2 [false, false, true, true]
      ⟨db, [], .arrived id1 owner1, .arrived id2 owner2⟩).calls =
      (mintRoute lib svc db id1 owner1 ans1).calls ++
      (mintRoute lib svc (mintRoute lib svc db id1 owner1 ans1).db id2 owner2 ans2).calls := by
  have hb : ∀ (d : Store) (i : String) (o : Option String),
      ∀ i2 o2, (mintBegin lib svc d i o).1 ≠ .arrived i2 o2 := by
    intro d i o i2 o2
    unfold mintBegin
    split
    · simp
    · split
      · simp
      · split
        · simp
        · split <;> simp
  rw [mintRoute_eq_begin_end lib svc db id1 owner1 ans1]
  rcases h1 : mintBegin lib svc db id1 owner1 with ⟨t1, c1⟩
  have hb1 := hb db id1 owner1
  rw [h1] at hb1
  cases t1 with
  | arrived i o => exact absurd rfl (hb1 i o)
  | finished resp1 =>
    simp only [MintRace.run, MintTask.resume, h1, List.nil_append]
    rw [mintRoute_eq_begin_end lib svc db id2 owner2 ans2]
    rcases h2 : mintBegin lib svc db id2 owner2 with ⟨t2, c2⟩
    have hb2 := hb db id2 owner2
    rw [h2] at hb2
    cases t2 with
    | arrived i o => exact absurd rfl (hb2 i o)
    | finished resp2 => simp
    | awaiting i2 p2 => simp
  | awaiting i1 p1 =>
    simp only [MintRace.run, MintTask.resume, h1, List.nil_append]
    rw [mintRoute_eq_begin_end lib svc (mintEnd db i1 p1 ans1).2 id2 owner2 ans2]
    rcases h2 : mintBegin lib svc (mintEnd db i1 p1 ans1).2 id2 owner2 with ⟨t2, c2⟩
    have hb2 := hb (mintEnd db i1 p1 ans1).2 id2 owner2
    rw [h2] at hb2
    cases t2 with
    | arrived i o => exact absurd rfl (hb2 i o)
    | finished resp2 => simp
    | awaiting i2 p2 => simp


/-- A confirmed mint of an unminted record whose call was sent: the write, the
status and the single call. -/
theorem mintRoute_confirmed (lib : Library) (svc : StarknetService) (db : Store)
    (id : String) (owner : Option String) (r : InvokeResult) (p : Property)
    (hp : db id = some p) (hun : truthy p.blockchainTokenId = false)
    (hcall : (mintRoute lib svc db id owner (.confirmed r)).calls ≠ []) :
    (mintRoute lib svc db id owner (.confirmed r)).db =
      db.save id { p with blockchainTokenId := r.token_id
                          blockchainTxHash := r.transaction_hash
                          onChain := true
                          verified := false } ∧
    (mintRoute lib svc db id owner (.confirmed r)).response.status = 201 ∧
    (mintRoute lib svc db id owner (.confirmed r)).calls.length = 1 := by
  have hown := mintRoute_calls_owner lib svc db id owner _ hcall
  rw [mintRoute_unminted lib svc db id owner _ p hown hp hun] at hcall ⊢
  rcases mintProperty_cases lib svc (.confirmed r) id owner
      ("https://api.warlnest.com/metadata/" ++ id) (.num (floorMulE18 p.price))
      ((propertyTypeMap p.type).getD 0)
      (hashCommitment lib (p.location ++ p.region ++ p.district)) with ⟨e, h⟩ | ⟨felt, u, -, -, h⟩
  · rw [h] at hcall; simp at hcall
  · rw [h]
    simp [submitAndWait]

/-- A mint request with an owner address for a record that carries a token id. -/
theorem mintRoute_minted (lib : Library) (svc : StarknetService) (db : Store)
    (id : String) (owner : Option String) (ans : LedgerAnswer) (p : Property)
    (hp : db id = some p) (hmint : truthy p.blockchainTokenId = true)
    (hown : truthy owner = true) :
    (mintRoute lib svc db id owner ans).response =
      { status := 400, message := "Property already minted",
        tokenId := p.blockchainTokenId } ∧
    (mintRoute lib svc db id owner ans).calls = [] ∧
    (mintRoute lib svc db id owner ans).db = db := by
  unfold mintRoute
  simp [hown, Store.findById, hp, hmint]

/-- One accepted rating update on a record whose rating times its count is the
total `s` of the ratings so far. -/
theorem ratingRoute_accept (db : Store) (id : String) (r : Rat) (p : Property) (s : Rat)
    (hp : db id = some p) (hs : p.rating.getD 0 * (p.reviewCount : Rat) = s)
    (hs0 : 0 ≤ s) (hs5 : s ≤ 5 * (p.reviewCount : Rat)) (hr0 : 0 ≤ r) (hr5 : r ≤ 5) :
    (ratingRoute db id r).2 =
      db.save id { p with rating := some ((s + r) / ((p.reviewCount + 1 : Nat) : Rat))
                          reviewCount := p.reviewCount + 1 } := by
  have hpos : (0 : Rat) < ((p.reviewCount + 1 : Nat) : Rat) := by
    exact_mod_cast Nat.succ_pos _
  have hcast : ((p.reviewCount + 1 : Nat) : Rat) = (p.reviewCount : Rat) + 1 := by
    push_cast; ring
  have h1 : ¬ (r < 0 ∨ r > 5) := by
    intro h; rcases h with h | h <;> linarith
  have h2 : ¬ ((s + r) / ((p.reviewCount + 1 : Nat) : Rat) < 0 ∨
      (s + r) / ((p.reviewCount + 1 : Nat) : Rat) > 5) := by
    intro h
    rcases h with h | h
    · have : 0 ≤ (s + r) / ((p.reviewCount + 1 : Nat) : Rat) :=
        div_nonneg (by linarith) hpos.le
      linarith
    · rw [gt_iff_lt, lt_div_iff₀ hpos] at h
      rw [hcast] at h
      linarith
  unfold ratingRoute
  simp only [h1, if_false, Store.findById, hp, hs, h2]

theorem ratingRun_total (id : String) (rs : List Rat) :
    ∀ (db : Store) (p : Property) (s : Rat), db id = some p →
      p.rating.getD 0 * (p.reviewCount : Rat) = s → 0 ≤ s → s ≤ 5 * (p.reviewCount : Rat) →
      (∀ r ∈ rs, 0 ≤ r ∧ r ≤ 5) →
      ∃ q, ratingRun db id rs id = some q ∧
        q.reviewCount = p.reviewCount + rs.length ∧
        q.rating.getD 0 * (q.reviewCount : Rat) = s + rs.sum ∧
        0 ≤ s + rs.sum ∧ s + rs.sum ≤ 5 * (q.reviewCount : Rat) ∧
        (rs ≠ [] → q.rating = some ((s + rs.sum) / (q.reviewCount : Rat))) := by
  induction rs with
  | nil =>
    intro db p s hp hs hs0 hs5 _
    exact ⟨p, hp, by simp, by simpa using hs, by simpa using hs0, by simpa using hs5,
      fun h => absurd rfl h⟩
  | cons r rest ih =>
    intro db p s hp hs hs0 hs5 hrs
    have hr := hrs r (List.mem_cons_self _ _)
    have hstep := ratingRoute_accept db id r p s hp hs hs0 hs5 hr.1 hr.2
    have hpos : (0 : Rat) < ((p.reviewCount + 1 : Nat) : Rat) := by
      exact_mod_cast Nat.succ_pos _
    have hcast : ((p.reviewCount + 1 : Nat) : Rat) = (p.reviewCount : Rat) + 1 := by
      push_cast; ring
    obtain ⟨q, hq, hcount, htotal, h0, h5, hmean⟩ :=
      ih (ratingRoute db id r).2
        { p with rating := some ((s + r) / ((p.reviewCount + 1 : Nat) : Rat))
                 reviewCount := p.reviewCount + 1 }
        (s + r) (by rw [hstep]; exact save_same _ _ _)
        (by simp only [Option.getD_some]; exact div_mul_cancel₀ _ hpos.ne')
        (by linarith) (by rw [hcast]; linarith)
        (fun x hx => hrs x (List.mem_cons_of_mem _ hx))
    refine ⟨q, hq, ?_, ?_, ?_, ?_, ?_⟩
    · rw [hcount]; simp only [List.length_cons]; omega
    · rw [htotal, List.sum_cons]; ring
    · rw [List.sum_cons]; linarith
    · rw [List.sum_cons]; linarith
    · intro _
      by_cases hrest : rest = []
      · subst hrest
        simp only [List.sum_cons, List.sum_nil, add_zero]
        simp only [ratingRun] at hq
        rw [hstep, save_same] at hq
        cases hq
        rfl
      · rw [hmean hrest, List.sum_cons]
        congr 1
        ring_nf

theorem mintPropertyCall_owner (lib : Library) (svc : StarknetService) (id : String)
    (o1 o2 : Option String) (uri : String) (price : BigNumberish) (ty : Nat) (loc : String)
    (c1 : LedgerCall) (h : mintPropertyCall lib svc id o1 uri price ty loc = .ok c1) :
    ∃ c2, mintPropertyCall lib svc id o2 uri price ty loc = .ok c2 := by
  unfold mintPropertyCall at h ⊢
  split at h
  · cases h
  · rename_i hsvc
    simp only [hsvc, if_false]
    split at h
    · cases h
    · rename_i felt hfelt
      split at h
      · cases h
      · exact ⟨_, rfl⟩

/-- The first stretch of a mint handler on an unminted record, when the call of a
mint request for the same record is sent: the handler is left awaiting the ledger
with that record in memory and one call submitted. -/
theorem mintBegin_sent (lib : Library) (svc : StarknetService) (db : Store) (id : String)
    (owner1 owner2 : Option String) (ans : LedgerAnswer) (p : Property)
    (hp : db id = some p) (hun : truthy p.blockchainTokenId = false)
    (hcall : (mintRoute lib svc db id owner1 ans).calls ≠ [])
    (hown2 : truthy owner2 = true) :
    ∃ c, mintBegin lib svc db id owner2 = (.awaiting id p, [c]) := by
  have hown1 := mintRoute_calls_owner lib svc db id owner1 ans hcall
  rw [mintRoute_eq_begin_end] at hcall
  unfold mintBegin at hcall ⊢
  simp only [hown1, hown2, Store.findById, hp, hun] at hcall ⊢
  cases h1 : mintPropertyCall lib svc id owner1 ("https://api.warlnest.com/metadata/" ++ id)
      (.num (floorMulE18 p.price)) ((propertyTypeMap p.type).getD 0)
      (hashCommitment lib (p.location ++ p.region ++ p.district)) with
  | error e => rw [h1] at hcall; simp at hcall
  | ok c1 =>
    obtain ⟨c2, h2⟩ := mintPropertyCall_owner lib svc id owner1 owner2 _ _ _ _ c1 h1
    exact ⟨c2, by simp [h2]⟩

/-- Two handlers for the same unminted record, interleaved so that both start
before either ends, both confirmed: both are answered 201 and two calls are sent. -/
theorem race_interleaved (lib : Library) (svc : StarknetService) (db : Store) (id : String)
    (owner1 owner2 : Option String) (r1 r2 : InvokeResult) (p : Property)
    (hp : db id = some p) (hun : truthy p.blockchainTokenId = false)
    (hcall : (mintRoute lib svc db id owner1 (.confirmed r1)).calls ≠ [])
    (hown2 : truthy owner2 = true) :
    (MintRace.run lib svc (.confirmed r1) (.confirmed r2) [false, true, false, true]
      ⟨db, [], .arrived id owner1, .arrived id owner2⟩).first.statusCode = some 201 ∧
    (MintRace.run lib svc (.confirmed r1) (.confirmed r2) [false, true, false, true]
      ⟨db, [], .arrived id owner1, .arrived id owner2⟩).second.statusCode = some 201 ∧
    (MintRace.run lib svc (.confirmed r1) (.confirmed r2) [false, true, false, true]
      ⟨db, [], .arrived id owner1, .arrived id owner2⟩).calls.length = 2 := by
  have hown1 := mintRoute_calls_owner lib svc db id owner1 _ hcall
  obtain ⟨c1, h1⟩ := mintBegin_sent lib svc db id owner1 owner1 _ p hp hun hcall hown1
  obtain ⟨c2, h2⟩ := mintBegin_sent lib svc db id owner1 owner2 _ p hp hun hcall hown2
  simp [MintRace.run, MintTask.resume, h1, h2, mintEnd, MintTask.statusCode]

/-- The calls of the mint route are those of the first stretch of the handler. -/
theorem mintRoute_calls_begin (lib : Library) (svc : StarknetService) (db : Store)
    (id : String) (owner : Option String) (ans : LedgerAnswer) :
    (mintRoute lib svc db id owner ans).calls = (mintBegin lib svc db id owner).2 := by
  rw [mintRoute_eq_begin_end lib svc db id owner ans]
  rcases h : mintBegin lib svc db id owner with ⟨task, calls⟩
  cases task <;> rfl

/-- The generic update on a stored listing with a body that passes the validators:
the assigned document is saved and answered 200. -/
theorem patchRoute_saved (db : Store) (id : String) (body : PropertyPatch) (p : Property)
    (hp : db id = some p) (hv : body.valid) :
    patchRoute db id body =
      ({ status := 200, message := none, property := some (body.assign p) },
       db.save id (body.assign p)) := by
  unfold patchRoute
  simp only [Store.findById, hp, hv, if_true]

/-! ## The claims -/

/-- C1: starting from a newly created listing (no token id, `onChain` false,
`verified` false), after any sequence of mint and verify requests, whatever the
ledger answers to each, the listing is still stored and `verified = true` implies
`onChain = true`. -/
theorem verified_implies_onChain (lib : Library) (svc : StarknetService) (db : Store)
    (id : String) (p : Property) (hp : db id = some p)
    (htok : p.blockchainTokenId = none) (_hon : p.onChain = false)
    (hver : p.verified = false) (reqs : List (Request × LedgerAnswer)) :
    ∃ q, run lib svc db reqs id = some q ∧ (q.verified = true → q.onChain = true) := by
  have hI : ChainInv p := ⟨by simp [htok, truthy], by simp [hver]⟩
  obtain ⟨q, hq, hqI⟩ := run_chainInv lib svc reqs db id p hp hI
  exact ⟨q, hq, hqI.2⟩

/-- Instance of C1: a confirmed mint, a rejected verification and a confirmed one. -/
theorem verified_implies_onChain_witness :
    sampleStore "p1" = some newListing ∧ newListing.blockchainTokenId = none ∧
    newListing.onChain = false ∧ newListing.verified = false ∧
    ∃ q, run stubLibrary readyService sampleStore
        [(.mint "p1" (some "0xowner"), .confirmed ⟨some "0xaa", some "7", none⟩),
         (.verify "p1" (some "0xadmin") 1700000500, .submitRejected "not admin"),
         (.verify "p1" (some "0xadmin") 1700000600, .confirmed ⟨some "0xbb", none, none⟩)]
        "p1" = some q ∧ (q.verified = true → q.onChain = true) :=
  ⟨rfl, rfl, rfl, rfl, verified_implies_onChain _ _ _ _ _ rfl rfl rfl rfl _⟩

/-- C2 (what the code does): the range check of the review route compares the
rating as a number, and a comparison with a value that is not a number is false
both ways. So for a rating that is present but has no number value (the string
"abc", say), on a tokenized listing with the reputation contract set up, the route
answers neither "Missing required fields" nor "Rating must be between 1 and 5": it
sends the `add_review` call with that rating as it stands, whatever the ledger
answers, and when the ledger confirms, the response is 201. The rating of that
call is not a number between 1 and 5. -/
theorem addReview_non_numeric_rating_reaches_ledger (lib : Library)
    (svc : StarknetService) (db : Store) (address : String) (body : ReviewBody)
    (ans : LedgerAnswer) (p : Property) (tok : Uint256)
    (hrev : truthy body.reviewerAddress = true) (hid : truthy body.propertyId = true)
    (htruthy : body.rating.truthy = true) (hnan : toNumber lib body.rating = .nan)
    (hp : db.findById body.propertyId = some p)
    (htok : truthy p.blockchainTokenId = true) (hsvc : svc.reputation = true)
    (henc : lib.bnToUint256 (tokenIdArg p.blockchainTokenId) = .ok tok) :
    (addReviewRoute lib svc db address body ans).calls =
      [.add_review address body.reviewerAddress body.rating tok
        (hashCommitment lib (body.reviewText.getD ""))] ∧
    (∀ x, toNumber lib body.rating = .fin x → ¬ (1 ≤ x ∧ x ≤ 5)) ∧
    (∀ r, ans = .confirmed r →
      (addReviewRoute lib svc db address body ans).response =
        { status := 201, message := "Review added successfully",
          transactionHash := r.transaction_hash }) := by
  have hf : (db.findById body.propertyId).filter (fun p => truthy p.blockchainTokenId) =
      some p := by
    rw [hp]; simp [Option.filter, htok]
  refine ⟨?_, ?_, ?_⟩
  · unfold addReviewRoute addReview
    simp only [hrev, hid, htruthy, hnan, JsNumber.lt, hf, hsvc, henc, Bool.not_true,
      Bool.or_self, Bool.false_eq_true, if_false]
    cases ans <;> rfl
  · intro x hx
    rw [hnan] at hx
    cases hx
  · intro r hr
    subst hr
    unfold addReviewRoute addReview
    simp only [hrev, hid, htruthy, hnan, JsNumber.lt, hf, hsvc, henc, Bool.not_true,
      Bool.or_self, Bool.false_eq_true, if_false]
    rfl

set_option maxRecDepth 4000 in
/-- Instance of C2: a review of the minted listing whose rating is the string
"abc". -/
theorem addReview_non_numeric_rating_reaches_ledger_witness :
    truthy (some "0xB") = true ∧ truthy (some "p1") = true ∧
    (JsValue.str "abc").truthy = true ∧
    toNumber stubLibrary (.str "abc") = .nan ∧
    mintedStore.findById (some "p1") = some mintedListing ∧
    truthy mintedListing.blockchainTokenId = true ∧
    readyService.reputation = true ∧
    stubLibrary.bnToUint256 (tokenIdArg mintedListing.blockchainTokenId) = .ok ⟨1, 0⟩ ∧
    (addReviewRoute stubLibrary readyService mintedStore "0xA"
      ⟨some "0xB", .str "abc", some "p1", some "fine"⟩
      (.confirmed ⟨some "0xcc", none, none⟩)).calls =
      [.add_review "0xA" (some "0xB") (.str "abc") ⟨1, 0⟩
        (hashCommitment stubLibrary "fine")] ∧
    (addReviewRoute stubLibrary readyService mintedStore "0xA"
      ⟨some "0xB", .str "abc", some "p1", some "fine"⟩
      (.confirmed ⟨some "0xcc", none, none⟩)).response =
      { status := 201, message := "Review added successfully",
        transactionHash := some "0xcc" } :=
  ⟨rfl, rfl, rfl, rfl, rfl, rfl, rfl, rfl,
   (addReview_non_numeric_rating_reaches_ledger stubLibrary readyService mintedStore "0xA"
      ⟨some "0xB", .str "abc", some "p1", some "fine"⟩
      (.confirmed ⟨some "0xcc", none, none⟩) mintedListing ⟨1, 0⟩
      rfl rfl rfl rfl rfl rfl rfl rfl).1,
   (addReview_non_numeric_rating_reaches_ledger stubLibrary readyService mintedStore "0xA"
      ⟨some "0xB", .str "abc", some "p1", some "fine"⟩
      (.confirmed ⟨some "0xcc", none, none⟩) mintedListing ⟨1, 0⟩
      rfl rfl rfl rfl rfl rfl rfl rfl).2.2 _ rfl⟩

set_option maxRecDepth 4000 in
/-- C3 (counterexample): a record with `onChain = false` that carries a token id is
not turned away by createEscrow; the contract call is sent and the route answers 201. -/
theorem createEscrow_onChain_false_reaches_ledger :
    strayTokenListing.onChain = false ∧
    (createEscrowRoute stubLibrary readyService strayStore
      ⟨some "p2", some "0xbuyer", some 5, some "deposit", none⟩
      (.confirmed ⟨some "0xdd", none, some "1"⟩)).response.status = 201 ∧
    (createEscrowRoute stubLibrary readyService strayStore
      ⟨some "p2", some "0xbuyer", some 5, some "deposit", none⟩
      (.confirmed ⟨some "0xdd", none, some "1"⟩)).calls =
      [.create_escrow ⟨1, 0⟩ (some "0xbuyer") ⟨5000000000000000000, 0⟩ 1
        "Standard release conditions"] := by
  refine ⟨rfl, ?_, ?_⟩ <;> decide

/-- C3 (amended): a createEscrow request against a record without token id, whatever
its other fields, is answered 400 "Property not on blockchain" with no ledger call;
and every record with `onChain = false` that mint and verify requests produce from a
newly created listing is such a record. -/
theorem createEscrow_without_token_rejected (lib : Library) (svc : StarknetService) :
    (∀ (db : Store) (body : EscrowBody) (ans : LedgerAnswer) (p : Property),
      db.findById body.propertyId = some p → truthy p.blockchainTokenId = false →
      (createEscrowRoute lib svc db body ans).response =
        { status := 400, message := "Property not on blockchain" } ∧
      (createEscrowRoute lib svc db body ans).calls = [] ∧
      (createEscrowRoute lib svc db body ans).db = db) ∧
    (∀ (db : Store) (id : String) (p : Property) (reqs : List (Request × LedgerAnswer))
      (q : Property), db id = some p → IsNewListing p →
      run lib svc db reqs id = some q → q.onChain = false →
      truthy q.blockchainTokenId = false) := by
  constructor
  · intro db body ans p hp htok
    exact createEscrowRoute_no_token lib svc db body ans p hp htok
  · intro db id p reqs q hp hnew hq hon
    obtain ⟨htok, -, -, hver, -, -⟩ := hnew
    have hI : ChainInv p := ⟨by simp [htok, truthy], by simp [hver]⟩
    obtain ⟨q2, hq2, hqI⟩ := run_chainInv lib svc reqs db id p hp hI
    rw [hq] at hq2
    cases hq2
    cases h : truthy q.blockchainTokenId with
    | false => rfl
    | true => have := hqI.1 h; simp [hon] at this

/-- Instance of the amended C3: an escrow request against the new listing. -/
theorem createEscrow_without_token_rejected_witness :
    sampleStore.findById (some "p1") = some newListing ∧
    truthy newListing.blockchainTokenId = false ∧
    (createEscrowRoute stubLibrary readyService sampleStore
      ⟨some "p1", some "0xbuyer", some 5, some "deposit", none⟩
      (.confirmed ⟨some "0xdd", none, some "1"⟩)).response =
        { status := 400, message := "Property not on blockchain" } ∧
    (createEscrowRoute stubLibrary readyService sampleStore
      ⟨some "p1", some "0xbuyer", some 5, some "deposit", none⟩
      (.confirmed ⟨some "0xdd", none, some "1"⟩)).calls = [] ∧
    (createEscrowRoute stubLibrary readyService sampleStore
      ⟨some "p1", some "0xbuyer", some 5, some "deposit", none⟩
      (.confirmed ⟨some "0xdd", none, some "1"⟩)).db = sampleStore :=
  ⟨rfl, rfl,
   (createEscrow_without_token_rejected stubLibrary readyService).1 sampleStore
     ⟨some "p1", some "0xbuyer", some 5, some "deposit", none⟩
     (.confirmed ⟨some "0xdd", none, some "1"⟩) newListing rfl rfl⟩

/-- C4: for an unminted listing and a mint request whose contract call was
submitted and confirmed with a result that carries a token id, the stored record
afterwards has that token id (present), the returned transaction hash as
`blockchainTxHash`, `onChain = true`, `verified = false`, all other fields as before,
and the response is 201 with the same token id. -/
theorem mint_confirmed_records_token (lib : Library) (svc : StarknetService) (db : Store)
    (id : String) (owner : Option String) (r : InvokeResult) (p : Property)
    (hp : db id = some p) (hun : truthy p.blockchainTokenId = false)
    (hcall : (mintRoute lib svc db id owner (.confirmed r)).calls ≠ [])
    (htok : truthy r.token_id = true) :
    ∃ q, (mintRoute lib svc db id owner (.confirmed r)).db id = some q ∧
      q = { p with blockchainTokenId := r.token_id
                   blockchainTxHash := r.transaction_hash
                   onChain := true
                   verified := false } ∧
      truthy q.blockchainTokenId = true ∧
      q.blockchainTokenId = r.token_id ∧
      q.blockchainTxHash = r.transaction_hash ∧
      q.onChain = true ∧ q.verified = false ∧
      (mintRoute lib svc db id owner (.confirmed r)).response.status = 201 ∧
      (mintRoute lib svc db id owner (.confirmed r)).response.tokenId = r.token_id ∧
      (mintRoute lib svc db id owner (.confirmed r)).response.transactionHash =
        r.transaction_hash := by
  have hown := mintRoute_calls_owner lib svc db id owner _ hcall
  rw [mintRoute_unminted lib svc db id owner _ p hown hp hun] at hcall ⊢
  rcases mintProperty_cases lib svc (.confirmed r) id owner
      ("https://api.warlnest.com/metadata/" ++ id) (.num (floorMulE18 p.price))
      ((propertyTypeMap p.type).getD 0)
      (hashCommitment lib (p.location ++ p.region ++ p.district)) with ⟨e, h⟩ | ⟨felt, u, -, -, h⟩
  · rw [h] at hcall; simp at hcall
  · rw [h]
    simp only [submitAndWait]
    refine ⟨_, save_same _ _ _, rfl, htok, ?_⟩
    simp

set_option maxRecDepth 4000 in
/-- Instance of C4: the new listing minted with token id 7. -/
theorem mint_confirmed_records_token_witness :
    ∃ q, (mintRoute stubLibrary readyService sampleStore "p1" (some "0xowner")
        (.confirmed ⟨some "0xaa", some "7", none⟩)).db "p1" = some q ∧
      q = { newListing with blockchainTokenId := some "7"
                            blockchainTxHash := some "0xaa"
                            onChain := true
                            verified := false } ∧
      truthy q.blockchainTokenId = true ∧
      q.blockchainTokenId = some "7" ∧
      q.blockchainTxHash = some "0xaa" ∧
      q.onChain = true ∧ q.verified = false ∧
      (mintRoute stubLibrary readyService sampleStore "p1" (some "0xowner")
        (.confirmed ⟨some "0xaa", some "7", none⟩)).response.status = 201 ∧
      (mintRoute stubLibrary readyService sampleStore "p1" (some "0xowner")
        (.confirmed ⟨some "0xaa", some "7", none⟩)).response.tokenId = some "7" ∧
      (mintRoute stubLibrary readyService sampleStore "p1" (some "0xowner")
        (.confirmed ⟨some "0xaa", some "7", none⟩)).response.transactionHash = some "0xaa" :=
  mint_confirmed_records_token stubLibrary readyService sampleStore "p1" (some "0xowner")
    ⟨some "0xaa", some "7", none⟩ newListing rfl rfl (by decide) (by decide)

/-- C5: when the ledger rejects the submission or the wait for finality fails, a
mint or verify request leaves the store exactly as it was, the response is an error
response, and whenever the contract call was sent the response is 500 carrying the
error message of the failure. -/
theorem failed_ledger_call_keeps_record (lib : Library) (svc : StarknetService)
    (db : Store) (req : Request) (ans : LedgerAnswer) (msg : String)
    (hfail : ans.failure = some msg) :
    (step lib svc db req ans).db = db ∧
    400 ≤ (step lib svc db req ans).response.status ∧
    ((step lib svc db req ans).calls ≠ [] →
      (step lib svc db req ans).response = { status := 500, message := msg }) := by
  cases req with
  | mint id owner => exact mintRoute_failure lib svc db id owner ans msg hfail
  | verify id verifier now => exact verifyRoute_failure lib svc db id verifier now ans msg hfail

set_option maxRecDepth 4000 in
/-- Instance of C5: a mint whose wait for finality times out. -/
theorem failed_ledger_call_keeps_record_witness :
    (LedgerAnswer.finalityFailed ⟨some "0xaa", none, none⟩ "timeout").failure = some "timeout" ∧
    (step stubLibrary readyService sampleStore (.mint "p1" (some "0xowner"))
      (.finalityFailed ⟨some "0xaa", none, none⟩ "timeout")).db = sampleStore ∧
    400 ≤ (step stubLibrary readyService sampleStore (.mint "p1" (some "0xowner"))
      (.finalityFailed ⟨some "0xaa", none, none⟩ "timeout")).response.status ∧
    ((step stubLibrary readyService sampleStore (.mint "p1" (some "0xowner"))
      (.finalityFailed ⟨some "0xaa", none, none⟩ "timeout")).calls ≠ [] →
      (step stubLibrary readyService sampleStore (.mint "p1" (some "0xowner"))
        (.finalityFailed ⟨some "0xaa", none, none⟩ "timeout")).response =
        { status := 500, message := "timeout" }) :=
  ⟨rfl, failed_ledger_call_keeps_record stubLibrary readyService sampleStore
    (.mint "p1" (some "0xowner")) (.finalityFailed ⟨some "0xaa", none, none⟩ "timeout")
    "timeout" rfl⟩

/-- C6: a mint request for a listing that already carries a token id is answered
with status 400 before anything is sent to the ledger and the store is unchanged;
when the owner address is given the answer is "Property already minted" together
with the stored token id. -/
theorem mint_of_minted_listing_rejected (lib : Library) (svc : StarknetService)
    (db : Store) (id : String) (owner : Option String) (ans : LedgerAnswer) (p : Property)
    (hp : db id = some p) (hmint : truthy p.blockchainTokenId = true) :
    (mintRoute lib svc db id owner ans).response.status = 400 ∧
    (mintRoute lib svc db id owner ans).calls = [] ∧
    (mintRoute lib svc db id owner ans).db = db ∧
    (truthy owner = true →
      (mintRoute lib svc db id owner ans).response =
        { status := 400, message := "Property already minted",
          tokenId := p.blockchainTokenId }) := by
  cases hown : truthy owner with
  | false => unfold mintRoute; simp [hown]
  | true => unfold mintRoute; simp [hown, Store.findById, hp, hmint]

/-- Instance of C6: a second mint of the minted listing. -/
theorem mint_of_minted_listing_rejected_witness :
    mintedStore "p1" = some mintedListing ∧ truthy mintedListing.blockchainTokenId = true ∧
    (mintRoute stubLibrary readyService mintedStore "p1" (some "0xowner")
      (.confirmed ⟨some "0xab", some "8", none⟩)).response.status = 400 ∧
    (mintRoute stubLibrary readyService mintedStore "p1" (some "0xowner")
      (.confirmed ⟨some "0xab", some "8", none⟩)).calls = [] ∧
    (mintRoute stubLibrary readyService mintedStore "p1" (some "0xowner")
      (.confirmed ⟨some "0xab", some "8", none⟩)).db = mintedStore ∧
    (truthy (some "0xowner") = true →
      (mintRoute stubLibrary readyService mintedStore "p1" (some "0xowner")
        (.confirmed ⟨some "0xab", some "8", none⟩)).response =
        { status := 400, message := "Property already minted",
          tokenId := mintedListing.blockchainTokenId }) :=
  ⟨rfl, rfl, mint_of_minted_listing_rejected stubLibrary readyService mintedStore "p1"
    (some "0xowner") (.confirmed ⟨some "0xab", some "8", none⟩) mintedListing rfl rfl⟩


set_option maxRecDepth 4000 in
/-- C7 (failing run): the ledger confirms a first mint with a result that has a
transaction hash and no token id; the record is saved with `onChain = true` and no
token id, so a second mint request for the same listing is not turned away: it is
answered 201 and the run of the two requests sends two `mint_property` calls. -/
theorem second_mint_after_tokenless_confirmation :
    tokenlessMintStore "p1" =
      some { newListing with blockchainTxHash := some "0xaa", onChain := true } ∧
    (mintRoute stubLibrary readyService tokenlessMintStore "p1" (some "0xowner")
      (.confirmed ⟨some "0xab", none, none⟩)).response.status = 201 ∧
    (runCalls stubLibrary readyService sampleStore
      [(.mint "p1" (some "0xowner"), .confirmed ⟨some "0xaa", none, none⟩),
       (.mint "p1" (some "0xowner"), .confirmed ⟨some "0xab", none, none⟩)]).length = 2 := by
  refine ⟨rfl, by decide, by decide⟩

/-- C8: starting from a newly created listing, after any sequence of mint and verify
requests with any ledger answers the listing is still stored and a set
`verificationTxHash` implies a token id; and a verify request on a listing without
token id is answered 400, sends nothing to the ledger and changes nothing. -/
theorem verificationTx_implies_tokenId (lib : Library) (svc : StarknetService) :
    (∀ (db : Store) (id : String) (p : Property) (reqs : List (Request × LedgerAnswer)),
      db id = some p → IsNewListing p →
      ∃ q, run lib svc db reqs id = some q ∧
        (q.verificationTxHash ≠ none → truthy q.blockchainTokenId = true)) ∧
    (∀ (db : Store) (id : String) (p : Property) (verifier : Option String) (now : Nat)
      (ans : LedgerAnswer), db id = some p → truthy p.blockchainTokenId = false →
      (verifyRoute lib svc db id verifier now ans).response =
        { status := 400, message := "Property not minted on blockchain" } ∧
      (verifyRoute lib svc db id verifier now ans).calls = [] ∧
      (verifyRoute lib svc db id verifier now ans).db = db) := by
  constructor
  · intro db id p reqs hp hnew
    obtain ⟨-, -, -, -, hvtx, -⟩ := hnew
    have hI : TxInv p := by simp [TxInv, hvtx]
    exact run_txInv lib svc reqs db id p hp hI
  · intro db id p verifier now ans hp htok
    unfold verifyRoute
    simp [Store.findById, hp, htok]

set_option maxRecDepth 4000 in
/-- Instance of C8: a verification before the mint, the mint, a verification after it. -/
theorem verificationTx_implies_tokenId_witness :
    (sampleStore "p1" = some newListing ∧ IsNewListing newListing ∧
      ∃ q, run stubLibrary readyService sampleStore
          [(.verify "p1" (some "0xadmin") 1700000400, .confirmed ⟨some "0xbb", none, none⟩),
           (.mint "p1" (some "0xowner"), .confirmed ⟨some "0xaa", some "7", none⟩),
           (.verify "p1" (some "0xadmin") 1700000600, .confirmed ⟨some "0xbc", none, none⟩)]
          "p1" = some q ∧
        (q.verificationTxHash ≠ none → truthy q.blockchainTokenId = true)) ∧
    (truthy newListing.blockchainTokenId = false ∧
      (verifyRoute stubLibrary readyService sampleStore "p1" (some "0xadmin") 1700000400
        (.confirmed ⟨some "0xbb", none, none⟩)).response =
        { status := 400, message := "Property not minted on blockchain" } ∧
      (verifyRoute stubLibrary readyService sampleStore "p1" (some "0xadmin") 1700000400
        (.confirmed ⟨some "0xbb", none, none⟩)).calls = [] ∧
      (verifyRoute stubLibrary readyService sampleStore "p1" (some "0xadmin") 1700000400
        (.confirmed ⟨some "0xbb", none, none⟩)).db = sampleStore) :=
  ⟨⟨rfl, by decide,
    (verificationTx_implies_tokenId stubLibrary readyService).1 sampleStore "p1" newListing _
      rfl (by decide)⟩,
   ⟨rfl, (verificationTx_implies_tokenId stubLibrary readyService).2 sampleStore "p1"
      newListing (some "0xadmin") 1700000400 (.confirmed ⟨some "0xbb", none, none⟩) rfl rfl⟩⟩

/-- C9: for a listing that carries a token id and a verify request whose contract
call was sent and confirmed, the stored record afterwards has `verified = true`,
`verificationTxHash` equal to the returned transaction hash and `verifiedAt` set to
the time of the request; its token id, mint transaction hash, `onChain` and every
other field are as before, and so is every other listing. -/
theorem verify_confirmed_frame (lib : Library) (svc : StarknetService) (db : Store)
    (id : String) (verifier : Option String) (now : Nat) (r : InvokeResult) (p : Property)
    (hp : db id = some p) (hmint : truthy p.blockchainTokenId = true)
    (hcall : (verifyRoute lib svc db id verifier now (.confirmed r)).calls ≠ []) :
    ∃ q, (verifyRoute lib svc db id verifier now (.confirmed r)).db id = some q ∧
      q = { p with verified := true
                   verificationTxHash := r.transaction_hash
                   verifiedAt := some now } ∧
      q.verified = true ∧ q.verificationTxHash = r.transaction_hash ∧
      q.verifiedAt = some now ∧
      q.blockchainTokenId = p.blockchainTokenId ∧
      q.blockchainTxHash = p.blockchainTxHash ∧
      q.onChain = p.onChain ∧
      (∀ k, k ≠ id → (verifyRoute lib svc db id verifier now (.confirmed r)).db k = db k) ∧
      (verifyRoute lib svc db id verifier now (.confirmed r)).response.status = 200 := by
  rw [verifyRoute_minted lib svc db id verifier now _ p hp hmint] at hcall ⊢
  rcases verifyProperty_cases lib svc (.confirmed r) p.blockchainTokenId verifier with
    ⟨e, h⟩ | ⟨tok, -, h⟩
  · rw [h] at hcall; simp at hcall
  · rw [h]
    simp only [submitAndWait]
    refine ⟨_, save_same _ _ _, rfl, rfl, rfl, rfl, rfl, rfl, rfl, ?_, trivial⟩
    intro k hk
    exact save_other _ _ _ _ hk

set_option maxRecDepth 4000 in
/-- Instance of C9: the minted listing verified. -/
theorem verify_confirmed_frame_witness :
    ∃ q, (verifyRoute stubLibrary readyService mintedStore "p1" (some "0xadmin") 1700000600
        (.confirmed ⟨some "0xbb", none, none⟩)).db "p1" = some q ∧
      q = { mintedListing with verified := true
                               verificationTxHash := some "0xbb"
                               verifiedAt := some 1700000600 } ∧
      q.verified = true ∧ q.verificationTxHash = some "0xbb" ∧
      q.verifiedAt = some 1700000600 ∧
      q.blockchainTokenId = mintedListing.blockchainTokenId ∧
      q.blockchainTxHash = mintedListing.blockchainTxHash ∧
      q.onChain = mintedListing.onChain ∧
      (∀ k, k ≠ "p1" →
        (verifyRoute stubLibrary readyService mintedStore "p1" (some "0xadmin") 1700000600
          (.confirmed ⟨some "0xbb", none, none⟩)).db k = mintedStore k) ∧
      (verifyRoute stubLibrary readyService mintedStore "p1" (some "0xadmin") 1700000600
        (.confirmed ⟨some "0xbb", none, none⟩)).response.status = 200 :=
  verify_confirmed_frame stubLibrary readyService mintedStore "p1" (some "0xadmin") 1700000600
    ⟨some "0xbb", none, none⟩ mintedListing rfl rfl (by decide)

/-- C10: for a property id that matches no listing or a listing without token id,
createEscrow, addReview and reportFraud are each turned away with status 400 or
404, send nothing to the ledger and leave the store as it was. -/
theorem untokenized_listing_no_ledger_call (lib : Library) (svc : StarknetService)
    (db : Store) (propertyId : Option String) (ans : LedgerAnswer)
    (h : ∀ p, db.findById propertyId = some p → truthy p.blockchainTokenId = false) :
    (∀ body : EscrowBody, body.propertyId = propertyId →
      Rejected (createEscrowRoute lib svc db body ans) db) ∧
    (∀ (address : String) (body : ReviewBody), body.propertyId = propertyId →
      Rejected (addReviewRoute lib svc db address body ans) db) ∧
    (∀ (address : String) (body : FraudBody), body.propertyId = propertyId →
      Rejected (reportFraudRoute lib svc db address body ans) db) := by
  refine ⟨?_, ?_, ?_⟩
  · intro body hb
    exact createEscrowRoute_rejected lib svc db body ans (by rw [hb]; exact h)
  · intro address body hb
    exact addReviewRoute_rejected lib svc db address body ans (by rw [hb]; exact h)
  · intro address body hb
    exact reportFraudRoute_rejected lib svc db address body ans (by rw [hb]; exact h)

/-- Instance of C10: the three requests against the new listing. -/
theorem untokenized_listing_no_ledger_call_witness :
    Rejected (createEscrowRoute stubLibrary readyService sampleStore
      ⟨some "p1", some "0xbuyer", some 5, some "deposit", none⟩
      (.confirmed ⟨some "0xdd", none, some "1"⟩)) sampleStore ∧
    Rejected (addReviewRoute stubLibrary readyService sampleStore "0xA"
      ⟨some "0xB", .num (.fin 4), some "p1", some "fine"⟩
      (.confirmed ⟨some "0xdd", none, some "1"⟩)) sampleStore ∧
    Rejected (reportFraudRoute stubLibrary readyService sampleStore "0xA"
      ⟨some "p1", some "forged deed"⟩
      (.confirmed ⟨some "0xdd", none, some "1"⟩)) sampleStore :=
  have h := untokenized_listing_no_ledger_call stubLibrary readyService sampleStore
    (some "p1") (.confirmed ⟨some "0xdd", none, some "1"⟩) sampleStore_untokenized
  ⟨h.1 _ rfl, h.2.1 "0xA" _ rfl, h.2.2 "0xA" _ rfl⟩

/-- C11 (what the code returns): whenever the four reads succeed, the `status`
property of the body of `GET /escrow/:escrowId` is the numeric status code read from
the ledger: the spread of the escrow data, written after the named state, replaces
it. -/
theorem escrowStatus_is_numeric_code (lib : Library) (svc : StarknetService)
    (contract : EscrowContract) (escrowId : String) (d : EscrowData)
    (hd : getEscrowStatus lib svc contract escrowId = .ok d) :
    (escrowStatusRoute lib svc contract escrowId).body.get "status" = some (.num d.status) := by
  simp only [escrowStatusRoute, hd, JsObject.spread, EscrowData.toObject, List.foldl]
  rw [set_get_other _ _ _ _ (by decide), set_get_other _ _ _ _ (by decide),
    set_get_other _ _ _ _ (by decide), set_get_other _ _ _ _ (by decide), set_get_same]

set_option maxRecDepth 4000 in
/-- Instance of C11: an escrow whose status code is 1 (funded). -/
theorem escrowStatus_is_numeric_code_witness :
    getEscrowStatus stubLibrary readyService (stubEscrowContract 1) "3" =
      .ok ⟨1, "5000000000000000000", "0xseller", "0xbuyer", false⟩ ∧
    statusMap 1 = some "funded" ∧
    (escrowStatusRoute stubLibrary readyService (stubEscrowContract 1) "3").body.get "status" =
      some (.num 1) :=
  ⟨rfl, rfl, escrowStatus_is_numeric_code stubLibrary readyService (stubEscrowContract 1) "3"
    ⟨1, "5000000000000000000", "0xseller", "0xbuyer", false⟩ rfl⟩

set_option maxRecDepth 4000 in
/-- C12 (counterexample): for the score 7036874417766407 the average rating is
written "70368744177664.06", while the quotient and remainder by 100 spell
"70368744177664.07". -/
theorem averageRating_large_score_off :
    (reputationRoute stubExponential readyService (stubReputationContract 7036874417766407)
      "0xA").body.get "averageRating" = some (.str "70368744177664.06") ∧
    toString (7036874417766407 / 100) ++ "." ++ pad2 (7036874417766407 % 100) =
      "70368744177664.07" := by
  refine ⟨by decide, by decide⟩

/-- C12 (amended): for every score `s` below `100 * 2 ^ 46 = 7036874417766400` read
from the ledger, the `averageRating` of the reputation response is `s / 100` written
with exactly two decimals: the whole part is `s / 100` and the two digits after the
point are `s % 100`. -/
theorem averageRating_two_decimals (exponential : Nat × Nat → String)
    (svc : StarknetService) (contract : ReputationContract) (address : String)
    (d : ReputationData) (hd : getAgentReputation svc contract address = .ok d)
    (hs : d.score < 7036874417766400) :
    (reputationRoute exponential svc contract address).body.get "averageRating" =
      some (.str (toString (d.score / 100) ++ "." ++ pad2 (d.score % 100))) := by
  simp only [reputationRoute, hd]
  rw [averageRatingText_exact exponential d.score hs]
  rfl

set_option maxRecDepth 4000 in
/-- Instance of the amended C12: the scores 450 and 5. -/
theorem averageRating_two_decimals_witness :
    (reputationRoute stubExponential readyService (stubReputationContract 450)
      "0xA").body.get "averageRating" = some (.str "4.50") ∧
    (reputationRoute stubExponential readyService (stubReputationContract 5)
      "0xA").body.get "averageRating" = some (.str "0.05") :=
  ⟨averageRating_two_decimals stubExponential readyService (stubReputationContract 450) "0xA"
      ⟨450, 12, true, 0⟩ rfl (by decide),
   averageRating_two_decimals stubExponential readyService (stubReputationContract 5) "0xA"
      ⟨5, 12, true, 0⟩ rfl (by decide)⟩


set_option maxRecDepth 4000 in
/-- C13 (what the code passes): for the price 15,000,000 the expression
`Math.floor(property.price * 1e18)` is 15000000000000000285212672, not
15000000 * 10 ^ 18, and that number is what the mint hands to `bnToUint256` and the
ledger receives; createEscrow scales its amount with the same expression. -/
theorem mint_price_scaling_inexact :
    floorMulE18 15000000 = 15000000000000000285212672 ∧
    floorMulE18 15000000 ≠ 15000000 * 10 ^ 18 ∧
    (mintRoute stubLibrary readyService sampleStore "p1" (some "0xowner")
      (.confirmed ⟨some "0xaa", some "7", none⟩)).calls =
      [.mint_property 1 (some "0xowner") "https://api.warlnest.com/metadata/p1"
        ⟨15000000000000000285212672, 0⟩ 1
        (hashCommitment stubLibrary
          (newListing.location ++ newListing.region ++ newListing.district))] ∧
    amountArg (some 15000000) = .num 15000000000000000285212672 := by
  refine ⟨by decide, by decide, by rfl, by decide⟩

set_option maxRecDepth 4000 in
/-- C14 (counterexample): a createEscrow request with amount 0 against a tokenized
listing is not rejected: the `create_escrow` call is sent with amount 0 and the
route answers 201. -/
theorem createEscrow_zero_amount_reaches_ledger :
    truthy mintedListing.blockchainTokenId = true ∧
    (createEscrowRoute stubLibrary readyService mintedStore
      ⟨some "p1", some "0xbuyer", some 0, some "deposit", none⟩
      (.confirmed ⟨some "0xdd", none, some "1"⟩)).response.status = 201 ∧
    (createEscrowRoute stubLibrary readyService mintedStore
      ⟨some "p1", some "0xbuyer", some 0, some "deposit", none⟩
      (.confirmed ⟨some "0xdd", none, some "1"⟩)).calls =
      [.create_escrow ⟨1, 0⟩ (some "0xbuyer") ⟨0, 0⟩ 1 "Standard release conditions"] := by
  refine ⟨by decide, by decide, by decide⟩

/-- C14 (amended): for a createEscrow request against a tokenized listing, the
request is rejected with status 500 before any ledger call whenever `bnToUint256`
refuses the scaled amount; the route itself never compares the amount with zero,
and every `create_escrow` call it sends carries the amount `bnToUint256` returned
for `Math.floor(amount * 1e18)`. -/
theorem createEscrow_amount_left_to_encoder (lib : Library) (svc : StarknetService)
    (db : Store) (body : EscrowBody) (ans : LedgerAnswer) (p : Property)
    (hp : db.findById body.propertyId = some p) (htok : truthy p.blockchainTokenId = true) :
    (∀ e, lib.bnToUint256 (amountArg body.amount) = .error e →
      (createEscrowRoute lib svc db body ans).response.status = 500 ∧
      (createEscrowRoute lib svc db body ans).calls = [] ∧
      (createEscrowRoute lib svc db body ans).db = db) ∧
    (∀ c ∈ (createEscrowRoute lib svc db body ans).calls,
      ∃ tok amt, lib.bnToUint256 (amountArg body.amount) = .ok amt ∧
        c = .create_escrow tok body.buyerAddress amt
          ((body.escrowType.bind escrowTypeMap).getD 0)
          (releaseConditionsArg body.releaseConditions)) := by
  constructor
  · intro e he
    rw [createEscrowRoute_tokenized lib svc db body ans p hp htok]
    rcases createEscrow_cases lib svc ans p.blockchainTokenId body.buyerAddress
        (amountArg body.amount) ((body.escrowType.bind escrowTypeMap).getD 0)
        (releaseConditionsArg body.releaseConditions) with ⟨e2, h⟩ | ⟨tok, amt, -, h2, -⟩
    · rw [h]; exact ⟨rfl, rfl, rfl⟩
    · rw [he] at h2; cases h2
  · intro c hc
    rcases createEscrowRoute_calls lib svc db body ans p hp htok with h | ⟨tok, amt, -, h2, h⟩
    · rw [h] at hc; simp at hc
    · rw [h] at hc
      simp at hc
      exact ⟨tok, amt, h2, hc⟩

set_option maxRecDepth 4000 in
/-- Instance of the amended C14: a request without amount, which the stand-in
encoder refuses. -/
theorem createEscrow_amount_left_to_encoder_witness :
    mintedStore.findById (some "p1") = some mintedListing ∧
    truthy mintedListing.blockchainTokenId = true ∧
    stubLibrary.bnToUint256 (amountArg none) =
      .error "The number NaN cannot be converted to a BigInt" ∧
    (createEscrowRoute stubLibrary readyService mintedStore
      ⟨some "p1", some "0xbuyer", none, some "deposit", none⟩
      (.confirmed ⟨some "0xdd", none, some "1"⟩)).response.status = 500 ∧
    (createEscrowRoute stubLibrary readyService mintedStore
      ⟨some "p1", some "0xbuyer", none, some "deposit", none⟩
      (.confirmed ⟨some "0xdd", none, some "1"⟩)).calls = [] ∧
    (createEscrowRoute stubLibrary readyService mintedStore
      ⟨some "p1", some "0xbuyer", none, some "deposit", none⟩
      (.confirmed ⟨some "0xdd", none, some "1"⟩)).db = mintedStore :=
  ⟨rfl, rfl, rfl,
   (createEscrow_amount_left_to_encoder stubLibrary readyService mintedStore
      ⟨some "p1", some "0xbuyer", none, some "deposit", none⟩
      (.confirmed ⟨some "0xdd", none, some "1"⟩) mintedListing rfl rfl).1 _ rfl⟩

/-- C15: over any sequence of mint and verify requests with any ledger answers, on a
listing that is in one of the three token states, the state only moves forward:
between any two points of the run `verified`, once true, stays true, the token id,
once present, stays the same, and the rank of the state does not decrease. -/
theorem token_state_moves_forward (lib : Library) (svc : StarknetService) (db : Store)
    (id : String) (p : Property) (hp : db id = some p) (hI : WellStated p)
    (reqs1 reqs2 : List (Request × LedgerAnswer)) :
    ∃ q1 q2, run lib svc db reqs1 id = some q1 ∧
      run lib svc db (reqs1 ++ reqs2) id = some q2 ∧
      (q1.verified = true → q2.verified = true) ∧
      (truthy q1.blockchainTokenId = true → q2.blockchainTokenId = q1.blockchainTokenId) ∧
      (tokenState q1).rank ≤ (tokenState q2).rank := by
  obtain ⟨q1, hq1, hw1⟩ := run_wellStated lib svc reqs1 db id p hp hI
  obtain ⟨q2, hq2, hw2, hv, ht⟩ := run_forward lib svc reqs2 (run lib svc db reqs1) id q1 hq1 hw1
  refine ⟨q1, q2, hq1, by rw [run_append]; exact hq2, hv, ht, ?_⟩
  unfold tokenState
  cases h1 : q1.verified with
  | true => simp [hv h1, TokenState.rank]
  | false =>
    cases h2 : truthy q1.blockchainTokenId with
    | false => simp [TokenState.rank]
    | true =>
      have h3 : truthy q2.blockchainTokenId = true := by rw [ht h2]; exact h2
      cases h4 : q2.verified <;> simp [h3, TokenState.rank]

set_option maxRecDepth 4000 in
/-- Instance of C15: a mint and a verification, then a second mint and a failed
verification. -/
theorem token_state_moves_forward_witness :
    sampleStore "p1" = some newListing ∧ WellStated newListing ∧
    ∃ q1 q2,
      run stubLibrary readyService sampleStore
        [(.mint "p1" (some "0xowner"), .confirmed ⟨some "0xaa", some "7", none⟩),
         (.verify "p1" (some "0xadmin") 1700000600, .confirmed ⟨some "0xbb", none, none⟩)]
        "p1" = some q1 ∧
      run stubLibrary readyService sampleStore
        ([(.mint "p1" (some "0xowner"), .confirmed ⟨some "0xaa", some "7", none⟩),
          (.verify "p1" (some "0xadmin") 1700000600, .confirmed ⟨some "0xbb", none, none⟩)] ++
         [(.mint "p1" (some "0xowner"), .confirmed ⟨some "0xab", some "8", none⟩),
          (.verify "p1" (some "0xadmin") 1700000700, .submitRejected "not admin")])
        "p1" = some q2 ∧
      (q1.verified = true → q2.verified = true) ∧
      (truthy q1.blockchainTokenId = true → q2.blockchainTokenId = q1.blockchainTokenId) ∧
      (tokenState q1).rank ≤ (tokenState q2).rank :=
  ⟨rfl, by simp [WellStated, newListing],
   token_state_moves_forward stubLibrary readyService sampleStore "p1" newListing rfl
     (by simp [WellStated, newListing]) _ _⟩

/-- C16: the commitment is one function of the text, `"0x"` followed by the first
62 characters of the hexadecimal SHA-256 digest; the review hash, the evidence hash
and the location hash sent to the ledger are this function applied to the review
text, the evidence and the location data; equal texts give equal commitments; and
with digests of 64 hexadecimal digits every commitment denotes a number below
`2 ^ 248`. -/
theorem commitment_is_truncated_digest (lib : Library) :
    (∀ t, hashCommitment lib t = "0x" ++ (lib.sha256Hex t).take 62) ∧
    (∀ (svc : StarknetService) (db : Store) (address : String) (body : ReviewBody)
      (ans : LedgerAnswer), ∀ c ∈ (addReviewRoute lib svc db address body ans).calls,
      ∃ reviewer rating tok, c = .add_review address reviewer rating tok
        (hashCommitment lib (body.reviewText.getD ""))) ∧
    (∀ (svc : StarknetService) (db : Store) (address : String) (body : FraudBody)
      (ans : LedgerAnswer), ∀ c ∈ (reportFraudRoute lib svc db address body ans).calls,
      ∃ tok, c = .report_fraud address tok (hashCommitment lib (body.evidence.getD ""))) ∧
    (∀ (svc : StarknetService) (db : Store) (id : String) (owner : Option String)
      (ans : LedgerAnswer), ∀ c ∈ (mintRoute lib svc db id owner ans).calls,
      ∃ p felt u ty, db id = some p ∧ c = .mint_property felt owner
        ("https://api.warlnest.com/metadata/" ++ id) u ty
        (hashCommitment lib (p.location ++ p.region ++ p.district))) ∧
    (∀ t1 t2, t1 = t2 → hashCommitment lib t1 = hashCommitment lib t2) ∧
    ((∀ t, IsHexDigest (lib.sha256Hex t)) →
      ∀ t, ∃ v, scalarOfHex (hashCommitment lib t) = some v ∧ v < 2 ^ 248) := by
  refine ⟨fun _ => rfl, ?_, ?_, ?_, ?_, ?_⟩
  · intro svc db address body ans c hc
    rcases addReviewRoute_calls lib svc db address body ans with h | ⟨tok, -, -, -, h⟩
    · rw [h] at hc; simp at hc
    · rw [h] at hc; simp at hc; exact ⟨_, _, tok, hc⟩
  · intro svc db address body ans c hc
    rcases reportFraudRoute_calls lib svc db address body ans with h | ⟨tok, h⟩
    · rw [h] at hc; simp at hc
    · rw [h] at hc; simp at hc; exact ⟨tok, hc⟩
  · intro svc db id owner ans c hc
    rcases mintRoute_calls lib svc db id owner ans with h | ⟨p, felt, u, hp, -, h⟩
    · rw [h] at hc; simp at hc
    · rw [h] at hc; simp at hc; exact ⟨p, felt, u, _, hp, hc⟩
  · intro t1 t2 h; rw [h]
  · intro hdig t
    exact hashCommitment_bound lib t (hdig t)

/-- Instance of C16: the stand-in library, whose digest has 64 hexadecimal digits. -/
theorem commitment_is_truncated_digest_witness :
    (∀ t, IsHexDigest (stubLibrary.sha256Hex t)) ∧
    ∃ v, scalarOfHex (hashCommitment stubLibrary "forged deed") = some v ∧ v < 2 ^ 248 :=
  ⟨stubLibrary_digest,
   (commitment_is_truncated_digest stubLibrary).2.2.2.2.2 stubLibrary_digest "forged deed"⟩

/-- C17: for each escrow kind (booking, deposit, full payment, requested as
`booking`, `deposit`, `payment`), every call that createEscrow sends for a
tokenized listing is a `create_escrow` call with the type code 0, 1, 2
respectively, and the three codes are distinct. -/
theorem escrow_kind_codes (lib : Library) (svc : StarknetService) (db : Store)
    (body : EscrowBody) (ans : LedgerAnswer) (p : Property) (kind : EscrowKind)
    (hp : db.findById body.propertyId = some p) (htok : truthy p.blockchainTokenId = true)
    (hkind : body.escrowType = some kind.requestValue) :
    (∀ c ∈ (createEscrowRoute lib svc db body ans).calls,
      ∃ tok amt, c = .create_escrow tok body.buyerAddress amt kind.code
        (releaseConditionsArg body.releaseConditions)) ∧
    EscrowKind.booking.code = 0 ∧ EscrowKind.deposit.code = 1 ∧
    EscrowKind.fullPayment.code = 2 ∧
    (∀ k1 k2 : EscrowKind, k1.code = k2.code → k1 = k2) := by
  refine ⟨?_, rfl, rfl, rfl, ?_⟩
  · intro c hc
    have hcode : (body.escrowType.bind escrowTypeMap).getD 0 = kind.code := by
      rw [hkind]; cases kind <;> rfl
    rcases createEscrowRoute_calls lib svc db body ans p hp htok with h | ⟨tok, amt, -, -, h⟩
    · rw [h] at hc; simp at hc
    · rw [h, hcode] at hc
      simp at hc
      exact ⟨tok, amt, hc⟩
  · intro k1 k2 h
    cases k1 <;> cases k2 <;> first | rfl | (simp [EscrowKind.code] at h)

set_option maxRecDepth 4000 in
/-- Instance of C17: a full-payment escrow of 5 units against the minted listing. -/
theorem escrow_kind_codes_witness :
    (createEscrowRoute stubLibrary readyService mintedStore
      ⟨some "p1", some "0xbuyer", some 5, some "payment", none⟩
      (.confirmed ⟨some "0xdd", none, some "1"⟩)).calls =
      [.create_escrow ⟨1, 0⟩ (some "0xbuyer") ⟨5000000000000000000, 0⟩ 2
        "Standard release conditions"] ∧
    (∀ c ∈ (createEscrowRoute stubLibrary readyService mintedStore
        ⟨some "p1", some "0xbuyer", some 5, some "payment", none⟩
        (.confirmed ⟨some "0xdd", none, some "1"⟩)).calls,
      ∃ tok amt, c = .create_escrow tok (some "0xbuyer") amt 2
        (releaseConditionsArg none)) :=
  ⟨by decide,
   (escrow_kind_codes stubLibrary readyService mintedStore
      ⟨some "p1", some "0xbuyer", some 5, some "payment", none⟩
      (.confirmed ⟨some "0xdd", none, some "1"⟩) mintedListing .fullPayment rfl rfl rfl).1⟩

set_option maxRecDepth 4000 in
/-- C18 (counterexample): a mint whose submission the ledger rejects and a mint whose
wait for finality fails, both with the error message "Request timed out", get the
same response. -/
theorem failed_mint_responses_can_coincide :
    (mintRoute stubLibrary readyService sampleStore "p1" (some "0xowner")
      (.submitRejected "Request timed out")).response =
    (mintRoute stubLibrary readyService sampleStore "p1" (some "0xowner")
      (.finalityFailed ⟨some "0xaa", none, none⟩ "Request timed out")).response := by
  decide

/-- C18 (amended): for a mint request whose contract call was sent, the response to
a rejected submission and the response to a failed wait for finality are both
status 500 with the error's message and nothing else; they are equal exactly when
the two messages are equal. -/
theorem failed_mint_told_apart_by_message (lib : Library) (svc : StarknetService)
    (db : Store) (id : String) (owner : Option String) (m1 m2 : String) (r : InvokeResult)
    (hcall : (mintRoute lib svc db id owner (.submitRejected m1)).calls ≠ []) :
    (mintRoute lib svc db id owner (.submitRejected m1)).response =
      { status := 500, message := m1 } ∧
    (mintRoute lib svc db id owner (.finalityFailed r m2)).response =
      { status := 500, message := m2 } ∧
    ((mintRoute lib svc db id owner (.submitRejected m1)).response =
      (mintRoute lib svc db id owner (.finalityFailed r m2)).response ↔ m1 = m2) := by
  have hcall2 : (mintRoute lib svc db id owner (.finalityFailed r m2)).calls ≠ [] := by
    rw [mintRoute_calls_indep lib svc db id owner _ (.submitRejected m1)]; exact hcall
  have h1 := (mintRoute_failure lib svc db id owner (.submitRejected m1) m1 rfl).2.2 hcall
  have h2 := (mintRoute_failure lib svc db id owner (.finalityFailed r m2) m2 rfl).2.2 hcall2
  refine ⟨h1, h2, ?_⟩
  rw [h1, h2]
  constructor
  · intro h; injection h
  · intro h; rw [h]

set_option maxRecDepth 4000 in
/-- Instance of the amended C18: the two failures with different messages. -/
theorem failed_mint_told_apart_by_message_witness :
    (mintRoute stubLibrary readyService sampleStore "p1" (some "0xowner")
      (.submitRejected "Account not authorised")).response =
      { status := 500, message := "Account not authorised" } ∧
    (mintRoute stubLibrary readyService sampleStore "p1" (some "0xowner")
      (.finalityFailed ⟨some "0xaa", none, none⟩ "Request timed out")).response =
      { status := 500, message := "Request timed out" } ∧
    ((mintRoute stubLibrary readyService sampleStore "p1" (some "0xowner")
      (.submitRejected "Account not authorised")).response =
      (mintRoute stubLibrary readyService sampleStore "p1" (some "0xowner")
        (.finalityFailed ⟨some "0xaa", none, none⟩ "Request timed out")).response ↔
      "Account not authorised" = "Request timed out") :=
  failed_mint_told_apart_by_message stubLibrary readyService sampleStore "p1" (some "0xowner")
    "Account not authorised" "Request timed out" ⟨some "0xaa", none, none⟩ (by decide)

set_option maxRecDepth 8000 in
/-- C19 (counterexample): two mint requests for the listing `p1`, interleaved so
that both handlers load the record before either saves it, are both answered 201 and
two `mint_property` calls are sent to the ledger and confirmed. -/
theorem interleaved_mints_both_confirmed :
    (MintRace.run stubLibrary readyService (.confirmed ⟨some "0xaa", some "7", none⟩)
      (.confirmed ⟨some "0xab", some "8", none⟩) [false, true, false, true]
      sampleRace).first.statusCode = some 201 ∧
    (MintRace.run stubLibrary readyService (.confirmed ⟨some "0xaa", some "7", none⟩)
      (.confirmed ⟨some "0xab", some "8", none⟩) [false, true, false, true]
      sampleRace).second.statusCode = some 201 ∧
    (MintRace.run stubLibrary readyService (.confirmed ⟨some "0xaa", some "7", none⟩)
      (.confirmed ⟨some "0xab", some "8", none⟩) [false, true, false, true]
      sampleRace).calls.length = 2 := by
  refine ⟨by decide, by decide, by decide⟩

/-- C19 (amended): two mint requests for the same unminted listing handled one after
the other, the first one sent and confirmed with a token id, result in exactly one
contract call, status 201 for the first and 400 "Property already minted" with the
stored token id for the second; interleaved so that both handlers load the record
before either saves it, and both confirmed, they are both answered 201 and two
contract calls are sent. -/
theorem sequential_mints_one_confirmed (lib : Library) (svc : StarknetService)
    (db : Store) (id : String) (owner1 owner2 : Option String) (r1 : InvokeResult)
    (ans2 : LedgerAnswer) (p : Property)
    (hp : db id = some p) (hun : truthy p.blockchainTokenId = false)
    (hcall : (mintRoute lib svc db id owner1 (.confirmed r1)).calls ≠ [])
    (htok : truthy r1.token_id = true) (hown2 : truthy owner2 = true) :
    (MintRace.run lib svc (.confirmed r1) ans2 [false, false, true, true]
      ⟨db, [], .arrived id owner1, .arrived id owner2⟩).first.statusCode = some 201 ∧
    (MintRace.run lib svc (.confirmed r1) ans2 [false, false, true, true]
      ⟨db, [], .arrived id owner1, .arrived id owner2⟩).second =
      .finished { status := 400, message := "Property already minted",
                  tokenId := r1.token_id } ∧
    (MintRace.run lib svc (.confirmed r1) ans2 [false, false, true, true]
      ⟨db, [], .arrived id owner1, .arrived id owner2⟩).calls.length = 1 ∧
    (∀ r2 : InvokeResult,
      (MintRace.run lib svc (.confirmed r1) (.confirmed r2) [false, true, false, true]
        ⟨db, [], .arrived id owner1, .arrived id owner2⟩).first.statusCode = some 201 ∧
      (MintRace.run lib svc (.confirmed r1) (.confirmed r2) [false, true, false, true]
        ⟨db, [], .arrived id owner1, .arrived id owner2⟩).second.statusCode = some 201 ∧
      (MintRace.run lib svc (.confirmed r1) (.confirmed r2) [false, true, false, true]
        ⟨db, [], .arrived id owner1, .arrived id owner2⟩).calls.length = 2) := by
  obtain ⟨hfirst, hsecond, -, hcalls⟩ :=
    race_sequential lib svc db id id owner1 owner2 (.confirmed r1) ans2
  obtain ⟨hdb, hstatus, hlen⟩ := mintRoute_confirmed lib svc db id owner1 r1 p hp hun hcall
  have hq : (mintRoute lib svc db id owner1 (.confirmed r1)).db id =
      some { p with blockchainTokenId := r1.token_id
                    blockchainTxHash := r1.transaction_hash
                    onChain := true
                    verified := false } := by
    rw [hdb]; exact save_same _ _ _
  obtain ⟨hresp2, hcalls2, -⟩ := mintRoute_minted lib svc
    (mintRoute lib svc db id owner1 (.confirmed r1)).db id owner2 ans2 _ hq htok hown2
  refine ⟨?_, ?_, ?_, ?_⟩
  · rw [hfirst]; simp [MintTask.statusCode, hstatus]
  · rw [hsecond, hresp2]
  · rw [hcalls, hcalls2, List.append_nil]; exact hlen
  · intro r2
    exact race_interleaved lib svc db id owner1 owner2 r1 r2 p hp hun hcall hown2

set_option maxRecDepth 8000 in
/-- Instance of the amended C19: the two requests for `p1` one after the other. -/
theorem sequential_mints_one_confirmed_witness :
    (MintRace.run stubLibrary readyService (.confirmed ⟨some "0xaa", some "7", none⟩)
      (.confirmed ⟨some "0xab", some "8", none⟩) [false, false, true, true]
      ⟨sampleStore, [], .arrived "p1" (some "0xowner"),
        .arrived "p1" (some "0xowner")⟩).first.statusCode = some 201 ∧
    (MintRace.run stubLibrary readyService (.confirmed ⟨some "0xaa", some "7", none⟩)
      (.confirmed ⟨some "0xab", some "8", none⟩) [false, false, true, true]
      ⟨sampleStore, [], .arrived "p1" (some "0xowner"),
        .arrived "p1" (some "0xowner")⟩).second =
      .finished { status := 400, message := "Property already minted",
                  tokenId := some "7" } ∧
    (MintRace.run stubLibrary readyService (.confirmed ⟨some "0xaa", some "7", none⟩)
      (.confirmed ⟨some "0xab", some "8", none⟩) [false, false, true, true]
      ⟨sampleStore, [], .arrived "p1" (some "0xowner"),
        .arrived "p1" (some "0xowner")⟩).calls.length = 1 :=
  have h := sequential_mints_one_confirmed stubLibrary readyService sampleStore "p1"
    (some "0xowner") (some "0xowner") ⟨some "0xaa", some "7", none⟩
    (.confirmed ⟨some "0xab", some "8", none⟩) newListing rfl rfl (by decide) rfl rfl
  ⟨h.1, h.2.1, h.2.2.1⟩

/-- C20: in the off-ledger rating path, starting from a listing with `reviewCount`
0, after `n ≥ 1` rating updates `r_1 .. r_n`, each between 0 and 5, the stored
rating is the arithmetic mean `(r_1 + ... + r_n) / n`, the stored `reviewCount` is
`n`, and the stored rating lies between 0 and 5. -/
theorem rating_is_running_mean (db : Store) (id : String) (p : Property) (rs : List Rat)
    (hp : db id = some p) (hcount : p.reviewCount = 0)
    (hrs : ∀ r ∈ rs, 0 ≤ r ∧ r ≤ 5) (hne : rs ≠ []) :
    ∃ q, ratingRun db id rs id = some q ∧
      q.rating = some (rs.sum / (rs.length : Rat)) ∧
      q.reviewCount = rs.length ∧
      0 ≤ rs.sum / (rs.length : Rat) ∧ rs.sum / (rs.length : Rat) ≤ 5 := by
  obtain ⟨q, hq, hn, -, h0, h5, hmean⟩ :=
    ratingRun_total id rs db p 0 hp (by simp [hcount]) le_rfl (by simp [hcount]) hrs
  have hlen : q.reviewCount = rs.length := by rw [hn, hcount]; simp
  have hpos : (0 : Rat) < (rs.length : Rat) := by
    have : 0 < rs.length := List.length_pos.mpr hne
    exact_mod_cast this
  rw [zero_add] at h0 h5
  rw [hlen] at h5
  refine ⟨q, hq, ?_, hlen, div_nonneg h0 hpos.le, ?_⟩
  · rw [hmean hne, zero_add, hlen]
  · rw [div_le_iff₀ hpos]; exact h5

/-- Instance of C20: the ratings 4, 5 and 3 on the new listing give the mean 4. -/
theorem rating_is_running_mean_witness :
    sampleStore "p1" = some newListing ∧ newListing.reviewCount = 0 ∧
    ∃ q, ratingRun sampleStore "p1" [4, 5, 3] "p1" = some q ∧
      q.rating = some (([4, 5, 3] : List Rat).sum / (([4, 5, 3] : List Rat).length : Rat)) ∧
      q.reviewCount = ([4, 5, 3] : List Rat).length ∧
      0 ≤ ([4, 5, 3] : List Rat).sum / (([4, 5, 3] : List Rat).length : Rat) ∧
      ([4, 5, 3] : List Rat).sum / (([4, 5, 3] : List Rat).length : Rat) ≤ 5 :=
  ⟨rfl, rfl, rating_is_running_mean sampleStore "p1" newListing [4, 5, 3] rfl rfl
    (by
      intro r hr
      simp only [List.mem_cons, List.mem_singleton, List.not_mem_nil, or_false] at hr
      rcases hr with rfl | rfl | rfl <;> norm_num)
    (by simp)⟩

set_option maxRecDepth 8000 in
/-- C21: the listings with (location, region, district) = ("ab", "c", "") and
("a", "bc", "") have different triples, yet for every library, service, owner and
ledger answer the mint of the one sends exactly the calls of the mint of the other,
location hash included, since the hash is taken over `location ++ region ++
district`; with the contracts set up that call is sent. -/
theorem location_hash_ignores_field_boundaries :
    (listingAbC.location, listingAbC.region, listingAbC.district) ≠
      (listingABc.location, listingABc.region, listingABc.district) ∧
    (∀ lib : Library,
      hashCommitment lib (listingAbC.location ++ listingAbC.region ++ listingAbC.district) =
      hashCommitment lib (listingABc.location ++ listingABc.region ++ listingABc.district)) ∧
    (∀ (lib : Library) (svc : StarknetService) (owner : Option String) (ans : LedgerAnswer),
      (mintRoute lib svc (singleStore listingAbC) "p1" owner ans).calls =
      (mintRoute lib svc (singleStore listingABc) "p1" owner ans).calls) ∧
    (mintRoute stubLibrary readyService (singleStore listingAbC) "p1" (some "0xowner")
      (.confirmed ⟨some "0xaa", some "7", none⟩)).calls =
      [.mint_property 1 (some "0xowner") "https://api.warlnest.com/metadata/p1"
        ⟨15000000000000000285212672, 0⟩ 1 (hashCommitment stubLibrary "abc")] := by
  have hcat : listingAbC.location ++ listingAbC.region ++ listingAbC.district =
      listingABc.location ++ listingABc.region ++ listingABc.district := by decide
  refine ⟨by decide, fun lib => by rw [hcat], ?_, by rfl⟩
  intro lib svc owner ans
  rw [mintRoute_calls_begin, mintRoute_calls_begin]
  have h1 : (singleStore listingAbC).findById (some "p1") = some listingAbC := rfl
  have h2 : (singleStore listingABc).findById (some "p1") = some listingABc := rfl
  have ht1 : truthy listingAbC.blockchainTokenId = false := rfl
  have ht2 : truthy listingABc.blockchainTokenId = false := rfl
  have hprice : listingAbC.price = listingABc.price := rfl
  have htype : listingAbC.type = listingABc.type := rfl
  unfold mintBegin
  simp only [h1, h2, ht1, ht2, hcat, hprice, htype]
  split
  · rfl
  · simp only [Bool.false_eq_true, if_false]
    split <;> rfl

/-- C22: the generic update saves the document with every property of the body
assigned to it, the blockchain paths included, and so does not keep the token-record
invariant: the body `verified: true` on the new listing `p1`, which satisfies the
invariant, leaves a stored record with `verified = true`, `onChain = false` and no
token id, which does not. The handler makes no ledger call. -/
theorem generic_update_breaks_token_invariant :
    (∀ (db : Store) (id : String) (body : PropertyPatch) (p : Property),
      db id = some p → body.valid →
      (patchRoute db id body).1.status = 200 ∧
      (patchRoute db id body).2 id = some (body.assign p) ∧
      (∀ k, k ≠ id → (patchRoute db id body).2 k = db k)) ∧
    (∀ (body : PropertyPatch) (p : Property) (v : Bool) (c : Bool) (t : Option String),
      body.verified = some v → body.onChain = some c → body.blockchainTokenId = some t →
      (body.assign p).verified = v ∧ (body.assign p).onChain = c ∧
      (body.assign p).blockchainTokenId = t) ∧
    (sampleStore "p1" = some newListing ∧ ChainInv newListing ∧
      ∃ q, (patchRoute sampleStore "p1" verifiedPatch).2 "p1" = some q ∧
        q.verified = true ∧ q.onChain = false ∧ q.blockchainTokenId = none ∧
        ¬ ChainInv q) := by
  refine ⟨?_, ?_, ?_⟩
  · intro db id body p hp hv
    rw [patchRoute_saved db id body p hp hv]
    exact ⟨rfl, save_same _ _ _, fun k hk => save_other _ _ _ _ hk⟩
  · intro body p v c t hv hc ht
    simp [PropertyPatch.assign, hv, hc, ht]
  · have hv : verifiedPatch.valid := by decide
    refine ⟨rfl, ⟨by simp [newListing, truthy], by simp [newListing]⟩, ?_⟩
    rw [patchRoute_saved sampleStore "p1" verifiedPatch newListing rfl hv]
    refine ⟨verifiedPatch.assign newListing,
      save_same sampleStore "p1" (verifiedPatch.assign newListing), rfl, rfl, rfl, ?_⟩
    intro h
    have := h.2 rfl
    simp [PropertyPatch.assign, verifiedPatch, newListing] at this

/-- Instance of C22: the body `verified: true` on the new listing `p1`. -/
theorem generic_update_breaks_token_invariant_witness :
    sampleStore "p1" = some newListing ∧ verifiedPatch.valid ∧
    (patchRoute sampleStore "p1" verifiedPatch).1.status = 200 ∧
    (patchRoute sampleStore "p1" verifiedPatch).2 "p1" =
      some { newListing with verified := true } ∧
    (∀ k, k ≠ "p1" → (patchRoute sampleStore "p1" verifiedPatch).2 k = sampleStore k) :=
  ⟨rfl, by decide,
   generic_update_breaks_token_invariant.1 sampleStore "p1" verifiedPatch newListing rfl
     (by decide)⟩

end Warlnest
